import Mathlib

/-!
Shallow embedding of the hotel reservation system (src/hotel_reservation.py).

The program manages three JSON array files (Hotels.json, Customers.json,
Reservations.json).  We model a JSON scalar value by `Value` (integers,
strings, null; these are the cases the program's field reads ever branch on),
a JSON object by `Record` (an association list; JSON objects have unique keys,
and reads/writes use the first occurrence of a key, so this is a faithful
model of a Python dict loaded from JSON), and a top-level array element by
`Entry` (a dict, or any non-dict JSON value, which the program only ever
skips or filters out, never inspects).

A collection file is modelled by `FileState`, abstracting the outcome of
opening, reading and parsing the file:
  - `absent`       : the file does not exist,
  - `unreadable`   : opening/reading the file raises an OSError,
  - `emptyContent` : the file's content is empty after stripping whitespace,
  - `invalidJson`  : the content does not parse as JSON (JSONDecodeError),
  - `notAList`     : the content parses as JSON but the top level is no array,
  - `list es`      : the content parses as a JSON array with elements `es`.

Writes rewrite the whole collection; we model the successful write (the
Python code catches IOError/OSError around every write and degrades to a
boolean, and every early `return False` in the claims happens before any
write, so write failures do not affect the stated properties).

Python dynamic typing is modelled explicitly: operations that can raise an
uncaught exception (OSError from an unreadable file, TypeError from
comparisons or arithmetic on mismatched types, KeyError from a missing
subscripted key) return `Except PyErr`.
-/

inductive Value where
  | vInt (n : Int)
  | vStr (s : String)
  | vNull
deriving DecidableEq, Repr

abbrev Record := List (String × Value)

inductive Entry where
  | dict (r : Record)
  | other
deriving DecidableEq, Repr

inductive FileState where
  | absent
  | unreadable
  | emptyContent
  | invalidJson
  | notAList
  | list (entries : List Entry)
deriving DecidableEq, Repr

inductive PyErr where
  | osError
  | typeError
  | valueError
  | keyError
deriving DecidableEq, Repr

deriving instance DecidableEq for Except

/-- Python `r.get(k)`: first binding of key `k`, if any. -/
def getField? : Record → String → Option Value
  | [], _ => none
  | (k', v) :: rest, k => if k' = k then some v else getField? rest k

/-- Python `r.get(k, d)`: field value with default. -/
def getFieldD (r : Record) (k : String) (d : Value) : Value :=
  (getField? r k).getD d

/-- Python `r[k] = v` on a dict: replace the binding if the key is present,
otherwise append it. -/
def setField : Record → String → Value → Record
  | [], k, v => [(k, v)]
  | (k', v') :: rest, k, v =>
      if k' = k then (k, v) :: rest else (k', v') :: setField rest k v

/-- Python `==` between two JSON scalar values (never raises; mismatched
types compare unequal, `None == None` is `True`). -/
def pyEqVal : Value → Value → Bool
  | .vInt a, .vInt b => a == b
  | .vStr a, .vStr b => a == b
  | .vNull, .vNull => true
  | _, _ => false

/-- Python `record.get('id') == self.id`: a missing field reads as `None`. -/
def idMatchesV (r : Record) (selfId : Value) : Bool :=
  pyEqVal ((getField? r "id").getD .vNull) selfId

/-- Whether a list element is a dict whose id equals `self.id` (the loop
condition `isinstance(e, dict) and e.get('id') == self.id`). -/
def entryMatches (selfId : Value) : Entry → Bool
  | .dict r => idMatchesV r selfId
  | .other => false

/-- Python `v <= n` for an int literal `n`: TypeError unless `v` is a number. -/
def pyLeInt : Value → Int → Except PyErr Bool
  | .vInt a, n => .ok (decide (a ≤ n))
  | _, _ => .error .typeError

/-- Python `v1 >= v2`: numbers compare with numbers, strings with strings
(lexicographically); any other combination raises TypeError. -/
def pyGe : Value → Value → Except PyErr Bool
  | .vInt a, .vInt b => .ok (decide (b ≤ a))
  | .vStr a, .vStr b => .ok (!(decide (a < b)))
  | _, _ => .error .typeError

/-- Python `v - 1`: TypeError unless `v` is a number. -/
def pySubOne : Value → Except PyErr Int
  | .vInt a => .ok (a - 1)
  | _ => .error .typeError

/-- Python `v + 1`: TypeError unless `v` is a number. -/
def pyAddOne : Value → Except PyErr Int
  | .vInt a => .ok (a + 1)
  | _ => .error .typeError

/-- Python `v1 - v2`: TypeError unless both are numbers. -/
def pySub : Value → Value → Except PyErr Int
  | .vInt a, .vInt b => .ok (a - b)
  | _, _ => .error .typeError

/-- Python `max(v1, v2)` step: cross-type comparison raises TypeError. -/
def pyMax2 : Value → Value → Except PyErr Value
  | .vInt a, .vInt b => .ok (.vInt (max a b))
  | .vStr a, .vStr b => .ok (.vStr (if a < b then b else a))
  | _, _ => .error .typeError

/-- Python `max(iterable)`: ValueError on an empty iterable, otherwise a
left fold of pairwise comparisons. -/
def pyMaxList : List Value → Except PyErr Value
  | [] => .error .valueError
  | v :: vs => vs.foldlM pyMax2 v

/-- The `_load_json_file` static method (duplicated verbatim in the three
classes): soft failure `(False, [])` for a missing file, empty content,
invalid JSON or a non-array top level; an unreadable file raises OSError,
which the method's `except json.JSONDecodeError` clause does not catch. -/
def loadJsonFile : FileState → Except PyErr (Bool × List Entry)
  | .absent => .ok (false, [])
  | .unreadable => .error .osError
  | .emptyContent => .ok (false, [])
  | .invalidJson => .ok (false, [])
  | .notAList => .ok (false, [])
  | .list es => .ok (true, es)

/-- The defensive read in the `create` methods: any soft-failure state is
treated as an empty collection and then overwritten (the unreadable case is
handled by the caller, whose outer `except (IOError, OSError)` catches it). -/
def createRead : FileState → List Entry
  | .list es => es
  | _ => []

/-- The ids the `max` generator in `create` ranges over: dict entries only,
with a missing id defaulting to 0. -/
def dictIds (es : List Entry) : List Value :=
  es.filterMap fun e =>
    match e with
    | .dict r => some (getFieldD r "id" (.vInt 0))
    | .other => none

/-- The next-id computation in the `create` methods: 1 for an empty
collection; otherwise `max(ids) + 1`, where a ValueError (no dict entries)
or TypeError (non-numeric id somewhere) is caught and the id falls back
to 1. -/
def nextId (es : List Entry) : Int :=
  if es.isEmpty then 1
  else
    match pyMaxList (dictIds es) with
    | .error _ => 1
    | .ok m =>
      match pyAddOne m with
      | .error _ => 1
      | .ok n => n

/-- The record `Hotel.create` appends: `__init__` sets
`habitaciones_disponibles = habitaciones`. -/
structure HotelSelf where
  nombre : String
  estado : String
  habitaciones : Int
deriving DecidableEq, Repr

def hotelRecord (h : HotelSelf) (i : Int) : Record :=
  [("id", .vInt i), ("nombre", .vStr h.nombre), ("estado", .vStr h.estado),
   ("habitaciones", .vInt h.habitaciones),
   ("habitaciones_disponibles", .vInt h.habitaciones)]

/-- The shared shape of the `create` methods (the code is duplicated
verbatim across the three classes, differing only in the record built):
read the file defensively, compute the next id, append the new record and
rewrite the file.  Returns the success flag and the id assigned to
`self.id`.  The outer `except (IOError, OSError)` turns an unreadable file
into a `False` return with nothing written. -/
def collectionCreate (f : Int → Record) (fs : FileState) :
    Bool × Option Int × FileState :=
  match fs with
  | .unreadable => (false, none, fs)
  | _ =>
    let es := createRead fs
    let newId := nextId es
    (true, some newId, .list (es ++ [.dict (f newId)]))

/-- `Hotel.create`. -/
def hotelCreate (h : HotelSelf) : FileState → Bool × Option Int × FileState :=
  collectionCreate (hotelRecord h)

structure CustomerSelf where
  nombre : String
  email : String
  telefono : String
deriving DecidableEq, Repr

def customerRecord (c : CustomerSelf) (i : Int) : Record :=
  [("id", .vInt i), ("nombre", .vStr c.nombre), ("email", .vStr c.email),
   ("telefono", .vStr c.telefono)]

/-- `Customer.create`: the same duplicated logic over Customers.json. -/
def customerCreate (c : CustomerSelf) : FileState → Bool × Option Int × FileState :=
  collectionCreate (customerRecord c)

/-- The `delete` method of `Hotel` and `Customer` (identical code): loads
the collection, keeps only dict entries whose id differs from `self.id`,
fails if nothing was removed, otherwise rewrites the file. -/
def entityDelete (selfId : Value) (fs : FileState) : Except PyErr Bool × FileState :=
  match loadJsonFile fs with
  | .error e => (.error e, fs)
  | .ok (false, _) => (.ok false, fs)
  | .ok (true, es) =>
    let filtered := es.filter fun e =>
      match e with
      | .dict r => !(idMatchesV r selfId)
      | .other => false
    if filtered.length = es.length then (.ok false, fs)
    else (.ok true, .list filtered)

/-- The search loop of `display_info` (and of `Reservation.cancel`): first
dict entry whose id matches. -/
def findRecord (selfId : Value) : List Entry → Option Record
  | [] => none
  | .dict r :: rest => if idMatchesV r selfId then some r else findRecord selfId rest
  | .other :: rest => findRecord selfId rest

/-- The `display_info` method of `Hotel` and `Customer` (identical loop):
returns the matching record, or the empty dict when the load fails soft or
no record matches. -/
def displayInfo (selfId : Value) (fs : FileState) : Except PyErr Record :=
  match loadJsonFile fs with
  | .error e => .error e
  | .ok (false, _) => .ok []
  | .ok (true, es) =>
    match findRecord selfId es with
    | some r => .ok r
    | none => .ok []

/-- An `if x is not None: record[k] = x` step of the partial updates. -/
def optSetStr (r : Record) (k : String) : Option String → Record
  | some s => setField r k (.vStr s)
  | none => r

/-- `Hotel._update_hotel_data`: partial update; when `habitaciones` is given,
`habitaciones_disponibles` is re-derived as `habitaciones - ocupadas` with
`ocupadas = old_total - old_available` (TypeError if either stored field is
not a number). -/
def updateHotelData (r : Record) (nombre estado : Option String)
    (habitaciones : Option Int) : Except PyErr Record :=
  let r2 := optSetStr (optSetStr r "nombre" nombre) "estado" estado
  match habitaciones with
  | none => .ok r2
  | some hab =>
    match pySub (getFieldD r2 "habitaciones" (.vInt 0))
        (getFieldD r2 "habitaciones_disponibles" (.vInt 0)) with
    | .error e => .error e
    | .ok ocupadas =>
      .ok (setField (setField r2 "habitaciones" (.vInt hab))
            "habitaciones_disponibles" (.vInt (hab - ocupadas)))

/-- Result of the find-and-mutate loops of `reserve_room` and
`cancel_reservation`: no matching record, an in-loop `return False`
(no rooms / nothing to cancel, nothing written), or the updated list. -/
inductive ScanRes where
  | notFound
  | earlyFalse
  | updated (es : List Entry)
deriving DecidableEq, Repr

def ScanRes.prepend (e : Entry) : ScanRes → ScanRes
  | .updated es => .updated (e :: es)
  | r => r

def ScanRes.prependAll (pre : List Entry) : ScanRes → ScanRes
  | .updated es => .updated (pre ++ es)
  | r => r

/-- The loop of `Hotel.reserve_room`: on the first matching dict, read
`habitaciones_disponibles` (default 0); `return False` if it is `<= 0`,
otherwise store the decremented value and stop. -/
def reserveScan (selfId : Value) : List Entry → Except PyErr ScanRes
  | [] => .ok .notFound
  | .dict r :: rest =>
    if idMatchesV r selfId then
      match pyLeInt (getFieldD r "habitaciones_disponibles" (.vInt 0)) 0 with
      | .error e => .error e
      | .ok true => .ok .earlyFalse
      | .ok false =>
        match pySubOne (getFieldD r "habitaciones_disponibles" (.vInt 0)) with
        | .error e => .error e
        | .ok n =>
          .ok (.updated (.dict (setField r "habitaciones_disponibles" (.vInt n)) :: rest))
    else
      match reserveScan selfId rest with
      | .error e => .error e
      | .ok res => .ok (res.prepend (.dict r))
  | .other :: rest =>
    match reserveScan selfId rest with
    | .error e => .error e
    | .ok res => .ok (res.prepend .other)

/-- `Hotel.reserve_room`: load, scan, and rewrite the file only when a room
was actually taken. -/
def reserveRoom (selfId : Value) (fs : FileState) : Except PyErr Bool × FileState :=
  match loadJsonFile fs with
  | .error e => (.error e, fs)
  | .ok (false, _) => (.ok false, fs)
  | .ok (true, es) =>
    match reserveScan selfId es with
    | .error e => (.error e, fs)
    | .ok .notFound => (.ok false, fs)
    | .ok .earlyFalse => (.ok false, fs)
    | .ok (.updated es') => (.ok true, .list es')

/-- The loop of `Hotel.cancel_reservation`: on the first matching dict,
`return False` if `habitaciones_disponibles >= habitaciones`, otherwise
store the incremented value and stop. -/
def cancelScan (selfId : Value) : List Entry → Except PyErr ScanRes
  | [] => .ok .notFound
  | .dict r :: rest =>
    if idMatchesV r selfId then
      match pyGe (getFieldD r "habitaciones_disponibles" (.vInt 0))
          (getFieldD r "habitaciones" (.vInt 0)) with
      | .error e => .error e
      | .ok true => .ok .earlyFalse
      | .ok false =>
        match pyAddOne (getFieldD r "habitaciones_disponibles" (.vInt 0)) with
        | .error e => .error e
        | .ok n =>
          .ok (.updated (.dict (setField r "habitaciones_disponibles" (.vInt n)) :: rest))
    else
      match cancelScan selfId rest with
      | .error e => .error e
      | .ok res => .ok (res.prepend (.dict r))
  | .other :: rest =>
    match cancelScan selfId rest with
    | .error e => .error e
    | .ok res => .ok (res.prepend .other)

/-- `Hotel.cancel_reservation`. -/
def cancelReservation (selfId : Value) (fs : FileState) : Except PyErr Bool × FileState :=
  match loadJsonFile fs with
  | .error e => (.error e, fs)
  | .ok (false, _) => (.ok false, fs)
  | .ok (true, es) =>
    match cancelScan selfId es with
    | .error e => (.error e, fs)
    | .ok .notFound => (.ok false, fs)
    | .ok .earlyFalse => (.ok false, fs)
    | .ok (.updated es') => (.ok true, .list es')

/-- The loop of `Hotel.modify_info`: update the first matching dict via
`_update_hotel_data` and stop. -/
def modifyScan (selfId : Value) (nombre estado : Option String)
    (habitaciones : Option Int) : List Entry → Except PyErr (Option (List Entry))
  | [] => .ok none
  | .dict r :: rest =>
    if idMatchesV r selfId then
      match updateHotelData r nombre estado habitaciones with
      | .error e => .error e
      | .ok r' => .ok (some (.dict r' :: rest))
    else
      match modifyScan selfId nombre estado habitaciones rest with
      | .error e => .error e
      | .ok o => .ok (o.map (.dict r :: ·))
  | .other :: rest =>
    match modifyScan selfId nombre estado habitaciones rest with
    | .error e => .error e
    | .ok o => .ok (o.map (.other :: ·))

/-- `Hotel.modify_info`. -/
def modifyInfo (selfId : Value) (nombre estado : Option String)
    (habitaciones : Option Int) (fs : FileState) : Except PyErr Bool × FileState :=
  match loadJsonFile fs with
  | .error e => (.error e, fs)
  | .ok (false, _) => (.ok false, fs)
  | .ok (true, es) =>
    match modifyScan selfId nombre estado habitaciones es with
    | .error e => (.error e, fs)
    | .ok none => (.ok false, fs)
    | .ok (some es') => (.ok true, .list es')

/-- The field updates of `Customer.modify_info` (partial update, no counter
logic, cannot raise). -/
def customerUpdate (r : Record) (nombre email telefono : Option String) : Record :=
  optSetStr (optSetStr (optSetStr r "nombre" nombre) "email" email) "telefono" telefono

def customerModifyScan (selfId : Value) (nombre email telefono : Option String) :
    List Entry → Option (List Entry)
  | [] => none
  | .dict r :: rest =>
    if idMatchesV r selfId then some (.dict (customerUpdate r nombre email telefono) :: rest)
    else (customerModifyScan selfId nombre email telefono rest).map (.dict r :: ·)
  | .other :: rest => (customerModifyScan selfId nombre email telefono rest).map (.other :: ·)

/-- `Customer.modify_info`. -/
def customerModifyInfo (selfId : Value) (nombre email telefono : Option String)
    (fs : FileState) : Except PyErr Bool × FileState :=
  match loadJsonFile fs with
  | .error e => (.error e, fs)
  | .ok (false, _) => (.ok false, fs)
  | .ok (true, es) =>
    match customerModifyScan selfId nombre email telefono es with
    | none => (.ok false, fs)
    | some es' => (.ok true, .list es')

/-- The three collection files the reservation operations touch. -/
structure World where
  customers : FileState
  hotels : FileState
  reservations : FileState
deriving DecidableEq, Repr

/-- The body of `Reservation.create` inside its `try` block: resolve the
customer (fail on a falsy display result), resolve the hotel, call
`reserve_room`, then read Reservations.json defensively, append the new
record and rewrite it.  An exception escapes with the mutations already
persisted. -/
def reservationCreateBody (customerId hotelId : Int) (w : World) :
    Except PyErr Bool × World :=
  match displayInfo (.vInt customerId) w.customers with
  | .error e => (.error e, w)
  | .ok [] => (.ok false, w)
  | .ok (_ :: _) =>
    match displayInfo (.vInt hotelId) w.hotels with
    | .error e => (.error e, w)
    | .ok [] => (.ok false, w)
    | .ok (_ :: _) =>
      match reserveRoom (.vInt hotelId) w.hotels with
      | (.error e, hs) => (.error e, { w with hotels := hs })
      | (.ok false, hs) => (.ok false, { w with hotels := hs })
      | (.ok true, hs) =>
        match w.reservations with
        | .unreadable => (.error .osError, { w with hotels := hs })
        | rs =>
          let es := createRead rs
          let rid := nextId es
          (.ok true,
           { w with hotels := hs,
                    reservations := .list (es ++ [.dict
                      [("id", .vInt rid), ("customer_id", .vInt customerId),
                       ("hotel_id", .vInt hotelId)]]) })

/-- `Reservation.create`: the body wrapped in `except (IOError, OSError)`,
which degrades an OSError to a `False` return (TypeError still escapes). -/
def reservationCreate (customerId hotelId : Int) (w : World) :
    Except PyErr Bool × World :=
  match reservationCreateBody customerId hotelId w with
  | (.error .osError, w') => (.ok false, w')
  | r => r

/-- `Reservation.cancel`: load Reservations.json, find the record matching
`self.id` (a falsy — empty — found dict also counts as not found), subscript
its `hotel_id` and `customer_id` (KeyError if absent), call
`cancel_reservation`, and only then remove the record and rewrite.  No
`try` surrounds any of this, so every raised error escapes. -/
def reservationCancel (selfId : Value) (w : World) : Except PyErr Bool × World :=
  match loadJsonFile w.reservations with
  | .error e => (.error e, w)
  | .ok (false, _) => (.ok false, w)
  | .ok (true, es) =>
    match findRecord selfId es with
    | none => (.ok false, w)
    | some [] => (.ok false, w)
    | some r =>
      match getField? r "hotel_id" with
      | none => (.error .keyError, w)
      | some hid =>
        match getField? r "customer_id" with
        | none => (.error .keyError, w)
        | some _ =>
          match cancelReservation hid w.hotels with
          | (.error e, hs) => (.error e, { w with hotels := hs })
          | (.ok false, hs) => (.ok false, { w with hotels := hs })
          | (.ok true, hs) =>
            let filtered := es.filter fun e =>
              match e with
              | .dict rr => !(idMatchesV rr selfId)
              | .other => false
            (.ok true, { w with hotels := hs, reservations := .list filtered })

/-- Observation: the stored `habitaciones_disponibles` of the first record
matching `selfId`, if the file holds an array containing one. -/
def storedAvail (selfId : Value) (fs : FileState) : Option Value :=
  match fs with
  | .list es => (findRecord selfId es).map fun r => getFieldD r "habitaciones_disponibles" (.vInt 0)
  | _ => none

/-- Observation: the stored `habitaciones` of the first matching record. -/
def storedTotal (selfId : Value) (fs : FileState) : Option Value :=
  match fs with
  | .list es => (findRecord selfId es).map fun r => getFieldD r "habitaciones" (.vInt 0)
  | _ => none

/-! Basic lemmas about record field access and update. -/

theorem getField?_setField_self (r : Record) (k : String) (v : Value) :
    getField? (setField r k v) k = some v := by
  induction r with
  | nil => simp [setField, getField?]
  | cons p rest ih =>
    obtain ⟨k', v'⟩ := p
    by_cases h : k' = k
    · simp [setField, h, getField?]
    · simp [setField, h, getField?, ih]

theorem getField?_setField_ne (r : Record) {k k' : String} (h : k' ≠ k) (v : Value) :
    getField? (setField r k v) k' = getField? r k' := by
  induction r with
  | nil => simp [setField, getField?, Ne.symm h]
  | cons p rest ih =>
    obtain ⟨k₀, v₀⟩ := p
    by_cases h0 : k₀ = k
    · subst h0
      simp [setField, getField?, Ne.symm h]
    · simp only [setField, if_neg h0, getField?]
      by_cases h1 : k₀ = k'
      · simp [h1]
      · simp [h1, ih]

theorem getFieldD_setField_self (r : Record) (k : String) (v d : Value) :
    getFieldD (setField r k v) k d = v := by
  simp [getFieldD, getField?_setField_self]

theorem getFieldD_setField_ne (r : Record) {k k' : String} (h : k' ≠ k) (v d : Value) :
    getFieldD (setField r k v) k' d = getFieldD r k' d := by
  simp [getFieldD, getField?_setField_ne r h]

theorem idMatchesV_setField (r : Record) {k : String} (h : k ≠ "id") (v : Value)
    (s : Value) : idMatchesV (setField r k v) s = idMatchesV r s := by
  simp [idMatchesV, getField?_setField_ne r (Ne.symm h)]

/-! Lemmas about the record-search loop. -/

theorem findRecord_cons_match {v : Value} {r : Record} (hm : idMatchesV r v = true)
    (rest : List Entry) : findRecord v (.dict r :: rest) = some r := by
  simp [findRecord, hm]

theorem findRecord_append_skip {v : Value} {pre : List Entry}
    (hpre : ∀ e ∈ pre, entryMatches v e = false) (es : List Entry) :
    findRecord v (pre ++ es) = findRecord v es := by
  induction pre with
  | nil => simp
  | cons e pre' ih =>
    have he := hpre e (by simp)
    have hpre' : ∀ x ∈ pre', entryMatches v x = false := fun x hx => hpre x (by simp [hx])
    cases e with
    | dict r =>
      have hm : idMatchesV r v = false := he
      simp [findRecord, hm, ih hpre']
    | other => simp [findRecord, ih hpre']

theorem findRecord_eq_none_iff {v : Value} {es : List Entry} :
    findRecord v es = none ↔ ∀ e ∈ es, entryMatches v e = false := by
  induction es with
  | nil => simp [findRecord]
  | cons e rest ih =>
    cases e with
    | dict r =>
      by_cases hm : idMatchesV r v
      · simp [findRecord, hm, entryMatches]
      · simp only [findRecord, if_neg hm, ih, List.mem_cons]
        constructor
        · intro h x hx
          cases hx with
          | inl h0 => subst h0; simpa [entryMatches] using hm
          | inr h0 => exact h x h0
        · intro h x hx
          exact h x (Or.inr hx)
    | other =>
      simp only [findRecord, ih, List.mem_cons]
      constructor
      · intro h x hx
        cases hx with
        | inl h0 => subst h0; simp [entryMatches]
        | inr h0 => exact h x h0
      · intro h x hx
        exact h x (Or.inr hx)

theorem findRecord_eq_some {v : Value} {es : List Entry} {r : Record}
    (h : findRecord v es = some r) :
    ∃ pre post, es = pre ++ .dict r :: post ∧
      (∀ e ∈ pre, entryMatches v e = false) ∧ idMatchesV r v = true := by
  induction es with
  | nil => simp [findRecord] at h
  | cons e rest ih =>
    cases e with
    | dict r0 =>
      by_cases hm : idMatchesV r0 v
      · rw [findRecord, if_pos hm, Option.some_inj] at h
        subst h
        exact ⟨[], rest, by simp, by simp, hm⟩
      · rw [findRecord, if_neg hm] at h
        obtain ⟨pre, post, h1, h2, h3⟩ := ih h
        refine ⟨.dict r0 :: pre, post, by simp [h1], ?_, h3⟩
        intro x hx
        rcases List.mem_cons.mp hx with h0 | h0
        · subst h0; simpa [entryMatches] using hm
        · exact h2 x h0
    | other =>
      rw [findRecord] at h
      obtain ⟨pre, post, h1, h2, h3⟩ := ih h
      refine ⟨.other :: pre, post, by simp [h1], ?_, h3⟩
      intro x hx
      rcases List.mem_cons.mp hx with h0 | h0
      · subst h0; simp [entryMatches]
      · exact h2 x h0

/-! Lemmas about the find-and-mutate loops: skipping non-matching entries,
and the shape of a successful scan (only the first matching record changes,
everything else keeps its position). -/

theorem reserveScan_cons_skip {v : Value} {e : Entry} (he : entryMatches v e = false)
    (es : List Entry) :
    reserveScan v (e :: es) =
      match reserveScan v es with
      | .error err => .error err
      | .ok res => .ok (res.prepend e) := by
  cases e with
  | dict r =>
    have hm : idMatchesV r v = false := he
    simp [reserveScan, hm]
  | other => simp [reserveScan]

theorem reserveScan_append {v : Value} {pre : List Entry}
    (hpre : ∀ e ∈ pre, entryMatches v e = false) (es : List Entry) :
    reserveScan v (pre ++ es) =
      match reserveScan v es with
      | .error err => .error err
      | .ok res => .ok (res.prependAll pre) := by
  induction pre with
  | nil =>
    cases h : reserveScan v es with
    | error err => simp [h]
    | ok res => cases res <;> simp [h, ScanRes.prependAll]
  | cons e pre' ih =>
    have he := hpre e (by simp)
    have hpre' : ∀ x ∈ pre', entryMatches v x = false := fun x hx => hpre x (by simp [hx])
    rw [List.cons_append, reserveScan_cons_skip he, ih hpre']
    cases h : reserveScan v es with
    | error err => simp
    | ok res => cases res <;> simp [ScanRes.prepend, ScanRes.prependAll]

theorem reserveScan_notFound {v : Value} {es : List Entry}
    (h : ∀ e ∈ es, entryMatches v e = false) :
    reserveScan v es = .ok .notFound := by
  have := reserveScan_append h []
  simpa [reserveScan, ScanRes.prependAll] using this

theorem cancelScan_cons_skip {v : Value} {e : Entry} (he : entryMatches v e = false)
    (es : List Entry) :
    cancelScan v (e :: es) =
      match cancelScan v es with
      | .error err => .error err
      | .ok res => .ok (res.prepend e) := by
  cases e with
  | dict r =>
    have hm : idMatchesV r v = false := he
    simp [cancelScan, hm]
  | other => simp [cancelScan]

theorem cancelScan_append {v : Value} {pre : List Entry}
    (hpre : ∀ e ∈ pre, entryMatches v e = false) (es : List Entry) :
    cancelScan v (pre ++ es) =
      match cancelScan v es with
      | .error err => .error err
      | .ok res => .ok (res.prependAll pre) := by
  induction pre with
  | nil =>
    cases h : cancelScan v es with
    | error err => simp [h]
    | ok res => cases res <;> simp [h, ScanRes.prependAll]
  | cons e pre' ih =>
    have he := hpre e (by simp)
    have hpre' : ∀ x ∈ pre', entryMatches v x = false := fun x hx => hpre x (by simp [hx])
    rw [List.cons_append, cancelScan_cons_skip he, ih hpre']
    cases h : cancelScan v es with
    | error err => simp
    | ok res => cases res <;> simp [ScanRes.prepend, ScanRes.prependAll]

theorem reserveScan_updated {v : Value} {es es' : List Entry}
    (h : reserveScan v es = .ok (.updated es')) :
    ∃ pre r a post,
      es = pre ++ .dict r :: post ∧
      (∀ e ∈ pre, entryMatches v e = false) ∧
      idMatchesV r v = true ∧
      getFieldD r "habitaciones_disponibles" (.vInt 0) = .vInt a ∧
      0 < a ∧
      es' = pre ++ .dict (setField r "habitaciones_disponibles" (.vInt (a - 1))) :: post := by
  induction es generalizing es' with
  | nil => simp [reserveScan] at h
  | cons e rest ih =>
    cases e with
    | dict r =>
      by_cases hm : idMatchesV r v
      · rw [reserveScan, if_pos hm] at h
        cases hd : getFieldD r "habitaciones_disponibles" (.vInt 0) with
        | vInt a =>
          rw [hd] at h
          by_cases ha : a ≤ 0
          · simp [pyLeInt, ha] at h
          · simp only [pyLeInt, decide_eq_false ha, pySubOne] at h
            rw [Except.ok.injEq, ScanRes.updated.injEq] at h
            exact ⟨[], r, a, rest, by simp, by simp, hm, hd, by omega, by simp [h]⟩
        | vStr s => rw [hd] at h; simp [pyLeInt] at h
        | vNull => rw [hd] at h; simp [pyLeInt] at h
      · have he : entryMatches v (.dict r) = false := by simpa [entryMatches] using hm
        rw [reserveScan_cons_skip he] at h
        cases hres : reserveScan v rest with
        | error err => rw [hres] at h; simp at h
        | ok res =>
          rw [hres] at h
          cases res with
          | notFound => simp [ScanRes.prepend] at h
          | earlyFalse => simp [ScanRes.prepend] at h
          | updated es'' =>
            simp only [ScanRes.prepend, Except.ok.injEq, ScanRes.updated.injEq] at h
            obtain ⟨pre, r0, a, post, h1, h2, h3, h4, h5, h6⟩ := ih hres
            refine ⟨.dict r :: pre, r0, a, post, by simp [h1], ?_, h3, h4, h5, by simp [← h, h6]⟩
            intro x hx
            rcases List.mem_cons.mp hx with h0 | h0
            · subst h0; exact he
            · exact h2 x h0
    | other =>
      rw [reserveScan_cons_skip (by simp [entryMatches])] at h
      cases hres : reserveScan v rest with
      | error err => rw [hres] at h; simp at h
      | ok res =>
        rw [hres] at h
        cases res with
        | notFound => simp [ScanRes.prepend] at h
        | earlyFalse => simp [ScanRes.prepend] at h
        | updated es'' =>
          simp only [ScanRes.prepend, Except.ok.injEq, ScanRes.updated.injEq] at h
          obtain ⟨pre, r0, a, post, h1, h2, h3, h4, h5, h6⟩ := ih hres
          refine ⟨.other :: pre, r0, a, post, by simp [h1], ?_, h3, h4, h5, by simp [← h, h6]⟩
          intro x hx
          rcases List.mem_cons.mp hx with h0 | h0
          · subst h0; simp [entryMatches]
          · exact h2 x h0

theorem cancelScan_updated {v : Value} {es es' : List Entry}
    (h : cancelScan v es = .ok (.updated es')) :
    ∃ pre r a t post,
      es = pre ++ .dict r :: post ∧
      (∀ e ∈ pre, entryMatches v e = false) ∧
      idMatchesV r v = true ∧
      getFieldD r "habitaciones_disponibles" (.vInt 0) = .vInt a ∧
      getFieldD r "habitaciones" (.vInt 0) = .vInt t ∧
      a < t ∧
      es' = pre ++ .dict (setField r "habitaciones_disponibles" (.vInt (a + 1))) :: post := by
  induction es generalizing es' with
  | nil => simp [cancelScan] at h
  | cons e rest ih =>
    cases e with
    | dict r =>
      by_cases hm : idMatchesV r v
      · rw [cancelScan, if_pos hm] at h
        cases hd : getFieldD r "habitaciones_disponibles" (.vInt 0) with
        | vInt a =>
          rw [hd] at h
          cases ht : getFieldD r "habitaciones" (.vInt 0) with
          | vInt t =>
            rw [ht] at h
            by_cases hat : t ≤ a
            · simp [pyGe, hat] at h
            · simp only [pyGe, decide_eq_false hat, pyAddOne] at h
              rw [Except.ok.injEq, ScanRes.updated.injEq] at h
              exact ⟨[], r, a, t, rest, by simp, by simp, hm, hd, ht, by omega, by simp [h]⟩
          | vStr s => rw [ht] at h; simp [pyGe] at h
          | vNull => rw [ht] at h; simp [pyGe] at h
        | vStr s =>
          rw [hd] at h
          cases ht : getFieldD r "habitaciones" (.vInt 0) with
          | vInt t => rw [ht] at h; simp [pyGe] at h
          | vStr s2 =>
            rw [ht] at h
            by_cases hlt : s < s2
            · simp [pyGe, hlt, pyAddOne] at h
            · simp [pyGe, hlt, pyAddOne] at h
          | vNull => rw [ht] at h; simp [pyGe] at h
        | vNull => rw [hd] at h; simp [pyGe] at h
      · have he : entryMatches v (.dict r) = false := by simpa [entryMatches] using hm
        rw [cancelScan_cons_skip he] at h
        cases hres : cancelScan v rest with
        | error err => rw [hres] at h; simp at h
        | ok res =>
          rw [hres] at h
          cases res with
          | notFound => simp [ScanRes.prepend] at h
          | earlyFalse => simp [ScanRes.prepend] at h
          | updated es'' =>
            simp only [ScanRes.prepend, Except.ok.injEq, ScanRes.updated.injEq] at h
            obtain ⟨pre, r0, a, t, post, h1, h2, h3, h4, h5, h6, h7⟩ := ih hres
            refine ⟨.dict r :: pre, r0, a, t, post, by simp [h1], ?_, h3, h4, h5, h6,
              by simp [← h, h7]⟩
            intro x hx
            rcases List.mem_cons.mp hx with h0 | h0
            · subst h0; exact he
            · exact h2 x h0
    | other =>
      rw [cancelScan_cons_skip (by simp [entryMatches])] at h
      cases hres : cancelScan v rest with
      | error err => rw [hres] at h; simp at h
      | ok res =>
        rw [hres] at h
        cases res with
        | notFound => simp [ScanRes.prepend] at h
        | earlyFalse => simp [ScanRes.prepend] at h
        | updated es'' =>
          simp only [ScanRes.prepend, Except.ok.injEq, ScanRes.updated.injEq] at h
          obtain ⟨pre, r0, a, t, post, h1, h2, h3, h4, h5, h6, h7⟩ := ih hres
          refine ⟨.other :: pre, r0, a, t, post, by simp [h1], ?_, h3, h4, h5, h6,
            by simp [← h, h7]⟩
          intro x hx
          rcases List.mem_cons.mp hx with h0 | h0
          · subst h0; simp [entryMatches]
          · exact h2 x h0

theorem modifyScan_some {v : Value} {n e : Option String} {hab : Option Int}
    {es es' : List Entry}
    (h : modifyScan v n e hab es = .ok (some es')) :
    ∃ pre r r' post,
      es = pre ++ .dict r :: post ∧
      (∀ x ∈ pre, entryMatches v x = false) ∧
      idMatchesV r v = true ∧
      updateHotelData r n e hab = .ok r' ∧
      es' = pre ++ .dict r' :: post := by
  induction es generalizing es' with
  | nil => simp [modifyScan] at h
  | cons x rest ih =>
    cases x with
    | dict r =>
      by_cases hm : idMatchesV r v
      · rw [modifyScan, if_pos hm] at h
        cases hu : updateHotelData r n e hab with
        | error err => rw [hu] at h; simp at h
        | ok r' =>
          rw [hu] at h
          rw [Except.ok.injEq, Option.some_inj] at h
          exact ⟨[], r, r', rest, by simp, by simp, hm, hu, by simp [h]⟩
      · rw [modifyScan, if_neg hm] at h
        cases hres : modifyScan v n e hab rest with
        | error err => rw [hres] at h; simp at h
        | ok o =>
          rw [hres] at h
          cases o with
          | none => simp at h
          | some es'' =>
            simp only [Option.map_some', Except.ok.injEq, Option.some_inj] at h
            obtain ⟨pre, r0, r', post, h1, h2, h3, h4, h5⟩ := ih hres
            refine ⟨.dict r :: pre, r0, r', post, by simp [h1], ?_, h3, h4, by simp [← h, h5]⟩
            intro y hy
            rcases List.mem_cons.mp hy with h0 | h0
            · subst h0; simpa [entryMatches] using hm
            · exact h2 y h0
    | other =>
      rw [modifyScan] at h
      cases hres : modifyScan v n e hab rest with
      | error err => rw [hres] at h; simp at h
      | ok o =>
        rw [hres] at h
        cases o with
        | none => simp at h
        | some es'' =>
          simp only [Option.map_some', Except.ok.injEq, Option.some_inj] at h
          obtain ⟨pre, r0, r', post, h1, h2, h3, h4, h5⟩ := ih hres
          refine ⟨.other :: pre, r0, r', post, by simp [h1], ?_, h3, h4, by simp [← h, h5]⟩
          intro y hy
          rcases List.mem_cons.mp hy with h0 | h0
          · subst h0; simp [entryMatches]
          · exact h2 y h0

/-! Success shapes of the hotel operations. -/

theorem reserveRoom_ok_true {v : Value} {fs fs' : FileState}
    (h : reserveRoom v fs = (.ok true, fs')) :
    ∃ es es', fs = .list es ∧ fs' = .list es' ∧ reserveScan v es = .ok (.updated es') := by
  cases fs with
  | list es =>
    simp only [reserveRoom, loadJsonFile] at h
    cases hscan : reserveScan v es with
    | error err => rw [hscan] at h; simp at h
    | ok res =>
      rw [hscan] at h
      cases res with
      | notFound => simp at h
      | earlyFalse => simp at h
      | updated es' =>
        have h2 : FileState.list es' = fs' := congrArg Prod.snd h
        exact ⟨es, es', rfl, h2.symm, hscan⟩
  | absent => simp [reserveRoom, loadJsonFile] at h
  | unreadable => simp [reserveRoom, loadJsonFile] at h
  | emptyContent => simp [reserveRoom, loadJsonFile] at h
  | invalidJson => simp [reserveRoom, loadJsonFile] at h
  | notAList => simp [reserveRoom, loadJsonFile] at h

theorem cancelReservation_ok_true {v : Value} {fs fs' : FileState}
    (h : cancelReservation v fs = (.ok true, fs')) :
    ∃ es es', fs = .list es ∧ fs' = .list es' ∧ cancelScan v es = .ok (.updated es') := by
  cases fs with
  | list es =>
    simp only [cancelReservation, loadJsonFile] at h
    cases hscan : cancelScan v es with
    | error err => rw [hscan] at h; simp at h
    | ok res =>
      rw [hscan] at h
      cases res with
      | notFound => simp at h
      | earlyFalse => simp at h
      | updated es' =>
        have h2 : FileState.list es' = fs' := congrArg Prod.snd h
        exact ⟨es, es', rfl, h2.symm, hscan⟩
  | absent => simp [cancelReservation, loadJsonFile] at h
  | unreadable => simp [cancelReservation, loadJsonFile] at h
  | emptyContent => simp [cancelReservation, loadJsonFile] at h
  | invalidJson => simp [cancelReservation, loadJsonFile] at h
  | notAList => simp [cancelReservation, loadJsonFile] at h

theorem modifyInfo_ok_true {v : Value} {n e : Option String} {hab : Option Int}
    {fs fs' : FileState} (h : modifyInfo v n e hab fs = (.ok true, fs')) :
    ∃ es es', fs = .list es ∧ fs' = .list es' ∧
      modifyScan v n e hab es = .ok (some es') := by
  cases fs with
  | list es =>
    simp only [modifyInfo, loadJsonFile] at h
    cases hscan : modifyScan v n e hab es with
    | error err => rw [hscan] at h; simp at h
    | ok o =>
      rw [hscan] at h
      cases o with
      | none => simp at h
      | some es' =>
        have h2 : FileState.list es' = fs' := congrArg Prod.snd h
        exact ⟨es, es', rfl, h2.symm, hscan⟩
  | absent => simp [modifyInfo, loadJsonFile] at h
  | unreadable => simp [modifyInfo, loadJsonFile] at h
  | emptyContent => simp [modifyInfo, loadJsonFile] at h
  | invalidJson => simp [modifyInfo, loadJsonFile] at h
  | notAList => simp [modifyInfo, loadJsonFile] at h

/-! The per-record room invariant of the specification:
`0 <= rooms_available <= rooms_total`.  The invariant constrains records
whose two counters are stored as numbers; a record storing a non-number in
either field is outside its scope, as is a non-dict entry. -/

def recInvB (r : Record) : Bool :=
  match getFieldD r "habitaciones" (.vInt 0), getFieldD r "habitaciones_disponibles" (.vInt 0) with
  | .vInt t, .vInt a => decide (0 ≤ a ∧ a ≤ t)
  | _, _ => true

def entryInvB : Entry → Bool
  | .dict r => recInvB r
  | .other => true

theorem forall2_refl_entry {R : Entry → Entry → Prop} (hrefl : ∀ e, R e e) :
    ∀ l : List Entry, List.Forall₂ R l l
  | [] => List.Forall₂.nil
  | e :: l => List.Forall₂.cons (hrefl e) (forall2_refl_entry hrefl l)

theorem forall2_frame {R : Entry → Entry → Prop} (hrefl : ∀ e, R e e)
    {x y : Entry} (hxy : R x y) :
    ∀ pre post : List Entry, List.Forall₂ R (pre ++ x :: post) (pre ++ y :: post)
  | [], post => List.Forall₂.cons hxy (forall2_refl_entry hrefl post)
  | e :: pre, post => List.Forall₂.cons (hrefl e) (forall2_frame hrefl hxy pre post)

/-- C10: `modify_info`, `reserve_room` and `cancel_reservation` on a hotel id
mutate only the first record whose id matches; every other element of the
stored Hotels collection is left unchanged and in its original position
whenever the operation succeeds. -/
theorem hotel_ops_frame :
    (∀ (v : Value) (n e : Option String) (hab : Option Int) (es : List Entry)
        (fs' : FileState),
      modifyInfo v n e hab (.list es) = (.ok true, fs') →
      ∃ pre r r' post, es = pre ++ .dict r :: post ∧
        fs' = .list (pre ++ .dict r' :: post) ∧
        idMatchesV r v = true ∧ ∀ x ∈ pre, entryMatches v x = false) ∧
    (∀ (v : Value) (es : List Entry) (fs' : FileState),
      reserveRoom v (.list es) = (.ok true, fs') →
      ∃ pre r r' post, es = pre ++ .dict r :: post ∧
        fs' = .list (pre ++ .dict r' :: post) ∧
        idMatchesV r v = true ∧ ∀ x ∈ pre, entryMatches v x = false) ∧
    (∀ (v : Value) (es : List Entry) (fs' : FileState),
      cancelReservation v (.list es) = (.ok true, fs') →
      ∃ pre r r' post, es = pre ++ .dict r :: post ∧
        fs' = .list (pre ++ .dict r' :: post) ∧
        idMatchesV r v = true ∧ ∀ x ∈ pre, entryMatches v x = false) := by
  refine ⟨?_, ?_, ?_⟩
  · intro v n e hab es fs' h
    obtain ⟨es0, es', heq, hfs', hscan⟩ := modifyInfo_ok_true h
    rw [FileState.list.injEq] at heq
    subst heq
    obtain ⟨pre, r, r', post, h1, h2, h3, _, h5⟩ := modifyScan_some hscan
    exact ⟨pre, r, r', post, h1, by rw [hfs', h5], h3, h2⟩
  · intro v es fs' h
    obtain ⟨es0, es', heq, hfs', hscan⟩ := reserveRoom_ok_true h
    rw [FileState.list.injEq] at heq
    subst heq
    obtain ⟨pre, r, a, post, h1, h2, h3, _, _, h6⟩ := reserveScan_updated hscan
    exact ⟨pre, r, setField r "habitaciones_disponibles" (.vInt (a - 1)), post, h1,
      by rw [hfs', h6], h3, h2⟩
  · intro v es fs' h
    obtain ⟨es0, es', heq, hfs', hscan⟩ := cancelReservation_ok_true h
    rw [FileState.list.injEq] at heq
    subst heq
    obtain ⟨pre, r, a, t, post, h1, h2, h3, _, _, _, h7⟩ := cancelScan_updated hscan
    exact ⟨pre, r, setField r "habitaciones_disponibles" (.vInt (a + 1)), post, h1,
      by rw [hfs', h7], h3, h2⟩

/-- C4: `reserve_room` decrements the stored `rooms_available` of the first
matching record by exactly 1 on success; it returns False with the stored
collection unchanged when the first matching record has
`rooms_available <= 0`, and when no record with the hotel's id exists in the
loaded collection. -/
theorem reserveRoom_spec :
    (∀ (v : Value) (fs fs' : FileState),
      reserveRoom v fs = (.ok true, fs') →
      ∃ a : Int, storedAvail v fs = some (.vInt a) ∧ 0 < a ∧
        storedAvail v fs' = some (.vInt (a - 1))) ∧
    (∀ (v : Value) (es : List Entry),
      findRecord v es = none → reserveRoom v (.list es) = (.ok false, .list es)) ∧
    (∀ (v : Value) (es : List Entry) (r : Record) (a : Int),
      findRecord v es = some r →
      getFieldD r "habitaciones_disponibles" (.vInt 0) = .vInt a → a ≤ 0 →
      reserveRoom v (.list es) = (.ok false, .list es)) := by
  refine ⟨?_, ?_, ?_⟩
  · intro v fs fs' h
    obtain ⟨es, es', hfs, hfs', hscan⟩ := reserveRoom_ok_true h
    obtain ⟨pre, r, a, post, h1, h2, h3, h4, h5, h6⟩ := reserveScan_updated hscan
    refine ⟨a, ?_, h5, ?_⟩
    · rw [hfs, h1, storedAvail, findRecord_append_skip h2, findRecord_cons_match h3]
      simp [h4]
    · have hm' : idMatchesV (setField r "habitaciones_disponibles" (.vInt (a - 1))) v = true := by
        rw [idMatchesV_setField r (by decide)]; exact h3
      rw [hfs', h6, storedAvail, findRecord_append_skip h2, findRecord_cons_match hm']
      simp [getFieldD_setField_self]
  · intro v es hnone
    have hall := findRecord_eq_none_iff.mp hnone
    simp [reserveRoom, loadJsonFile, reserveScan_notFound hall]
  · intro v es r a hfind hd ha
    obtain ⟨pre, post, h1, h2, h3⟩ := findRecord_eq_some hfind
    have hscan : reserveScan v es = .ok .earlyFalse := by
      rw [h1, reserveScan_append h2, reserveScan, if_pos h3, hd]
      simp [pyLeInt, ha, ScanRes.prependAll]
    simp [reserveRoom, loadJsonFile, hscan]

/-- C2: a successful `reserve_room` followed by a successful
`cancel_reservation` on the same hotel restores the stored
`rooms_available` to its pre-reserve value, both in the stored record and
as observed by a subsequent `display_info`. -/
theorem reserve_cancel_round_trip :
    ∀ (v : Value) (fs fs1 fs2 : FileState),
      reserveRoom v fs = (.ok true, fs1) →
      cancelReservation v fs1 = (.ok true, fs2) →
      storedAvail v fs2 = storedAvail v fs ∧
      ∃ r, displayInfo v fs2 = .ok r ∧
        some (getFieldD r "habitaciones_disponibles" (.vInt 0)) = storedAvail v fs := by
  intro v fs fs1 fs2 h1 h2
  obtain ⟨es, es1, hfs, hfs1, hscan1⟩ := reserveRoom_ok_true h1
  obtain ⟨pre, r, a, post, he, hpre, hm, hd, ha, he1⟩ := reserveScan_updated hscan1
  set r1 := setField r "habitaciones_disponibles" (.vInt (a - 1)) with hr1
  have hm1 : idMatchesV r1 v = true := by
    rw [hr1, idMatchesV_setField r (by decide)]; exact hm
  have havail1 : getFieldD r1 "habitaciones_disponibles" (.vInt 0) = .vInt (a - 1) := by
    rw [hr1, getFieldD_setField_self]
  have htot1 : getFieldD r1 "habitaciones" (.vInt 0) = getFieldD r "habitaciones" (.vInt 0) := by
    rw [hr1, getFieldD_setField_ne r (by decide)]
  have hsA : storedAvail v fs = some (.vInt a) := by
    rw [hfs, he, storedAvail, findRecord_append_skip hpre, findRecord_cons_match hm]
    simp [hd]
  rw [hfs1] at h2
  cases ht : getFieldD r "habitaciones" (.vInt 0) with
  | vInt t =>
    by_cases hle : t ≤ a - 1
    · have hcs : cancelScan v es1 = .ok .earlyFalse := by
        rw [he1, cancelScan_append hpre, cancelScan, if_pos hm1, havail1, htot1, ht]
        simp [pyGe, hle, ScanRes.prependAll]
      simp only [cancelReservation, loadJsonFile] at h2
      rw [hcs] at h2
      simp at h2
    · have hcs : cancelScan v es1 =
          .ok (.updated (pre ++ .dict (setField r1 "habitaciones_disponibles"
            (.vInt (a - 1 + 1))) :: post)) := by
        rw [he1, cancelScan_append hpre, cancelScan, if_pos hm1, havail1, htot1, ht]
        simp [pyGe, hle, pyAddOne, ScanRes.prependAll]
      simp only [cancelReservation, loadJsonFile] at h2
      rw [hcs] at h2
      have hfs2 : fs2 = .list (pre ++ .dict (setField r1 "habitaciones_disponibles"
          (.vInt (a - 1 + 1))) :: post) := by
        have := congrArg Prod.snd h2
        simpa using this.symm
      have hm2 : idMatchesV (setField r1 "habitaciones_disponibles" (.vInt (a - 1 + 1))) v
          = true := by
        rw [idMatchesV_setField r1 (by decide)]; exact hm1
      have haa : a - 1 + 1 = a := by omega
      constructor
      · rw [hfs2, storedAvail, findRecord_append_skip hpre, findRecord_cons_match hm2]
        simp [getFieldD_setField_self, haa, hsA]
      · refine ⟨setField r1 "habitaciones_disponibles" (.vInt (a - 1 + 1)), ?_, ?_⟩
        · rw [hfs2]
          simp only [displayInfo, loadJsonFile]
          rw [findRecord_append_skip hpre, findRecord_cons_match hm2]
        · simp [getFieldD_setField_self, haa, hsA]
  | vStr s =>
    have hcs : cancelScan v es1 = .error .typeError := by
      rw [he1, cancelScan_append hpre, cancelScan, if_pos hm1, havail1, htot1, ht]
      simp [pyGe]
    simp only [cancelReservation, loadJsonFile] at h2
    rw [hcs] at h2
    simp at h2
  | vNull =>
    have hcs : cancelScan v es1 = .error .typeError := by
      rw [he1, cancelScan_append hpre, cancelScan, if_pos hm1, havail1, htot1, ht]
      simp [pyGe]
    simp only [cancelReservation, loadJsonFile] at h2
    rw [hcs] at h2
    simp at h2

/-! Helper lemmas for the invariant and for modify_info. -/

theorem getFieldD_optSetStr_ne (r : Record) {k k' : String} (h : k' ≠ k)
    (o : Option String) (d : Value) :
    getFieldD (optSetStr r k o) k' d = getFieldD r k' d := by
  cases o with
  | none => rfl
  | some s => exact getFieldD_setField_ne r h (.vStr s) d

theorem idMatchesV_optSetStr (r : Record) {k : String} (h : k ≠ "id")
    (o : Option String) (s : Value) :
    idMatchesV (optSetStr r k o) s = idMatchesV r s := by
  cases o with
  | none => rfl
  | some x => exact idMatchesV_setField r h (.vStr x) s

theorem updateHotelData_fields {r r' : Record} {n e : Option String}
    {hnew t a : Int}
    (ht : getFieldD r "habitaciones" (.vInt 0) = .vInt t)
    (ha : getFieldD r "habitaciones_disponibles" (.vInt 0) = .vInt a)
    (h : updateHotelData r n e (some hnew) = .ok r') :
    getFieldD r' "habitaciones" (.vInt 0) = .vInt hnew ∧
    getFieldD r' "habitaciones_disponibles" (.vInt 0) = .vInt (hnew - (t - a)) ∧
    ∀ s, idMatchesV r' s = idMatchesV r s := by
  have ht2 : getFieldD (optSetStr (optSetStr r "nombre" n) "estado" e)
      "habitaciones" (.vInt 0) = .vInt t := by
    rw [getFieldD_optSetStr_ne _ (by decide), getFieldD_optSetStr_ne _ (by decide), ht]
  have ha2 : getFieldD (optSetStr (optSetStr r "nombre" n) "estado" e)
      "habitaciones_disponibles" (.vInt 0) = .vInt a := by
    rw [getFieldD_optSetStr_ne _ (by decide), getFieldD_optSetStr_ne _ (by decide), ha]
  simp only [updateHotelData, ht2, ha2, pySub] at h
  rw [Except.ok.injEq] at h
  subst h
  refine ⟨?_, ?_, ?_⟩
  · rw [getFieldD_setField_ne _ (by decide), getFieldD_setField_self]
  · rw [getFieldD_setField_self]
  · intro s
    rw [idMatchesV_setField _ (by decide), idMatchesV_setField _ (by decide),
      idMatchesV_optSetStr _ (by decide), idMatchesV_optSetStr _ (by decide)]

theorem recInvB_dec {r : Record} {a : Int}
    (hd : getFieldD r "habitaciones_disponibles" (.vInt 0) = .vInt a)
    (ha : 0 < a) (hinv : recInvB r = true) :
    recInvB (setField r "habitaciones_disponibles" (.vInt (a - 1))) = true := by
  cases ht : getFieldD r "habitaciones" (.vInt 0) with
  | vInt t =>
    rw [recInvB, ht, hd] at hinv
    simp only [decide_eq_true_eq] at hinv
    simp only [recInvB, getFieldD_setField_ne r (show ("habitaciones" : String) ≠
      "habitaciones_disponibles" by decide), getFieldD_setField_self, ht,
      decide_eq_true_eq]
    omega
  | vStr s =>
    simp [recInvB, getFieldD_setField_ne r (show ("habitaciones" : String) ≠
      "habitaciones_disponibles" by decide), getFieldD_setField_self, ht]
  | vNull =>
    simp [recInvB, getFieldD_setField_ne r (show ("habitaciones" : String) ≠
      "habitaciones_disponibles" by decide), getFieldD_setField_self, ht]

theorem recInvB_inc {r : Record} {a t : Int}
    (hd : getFieldD r "habitaciones_disponibles" (.vInt 0) = .vInt a)
    (ht : getFieldD r "habitaciones" (.vInt 0) = .vInt t)
    (hat : a < t) (hinv : recInvB r = true) :
    recInvB (setField r "habitaciones_disponibles" (.vInt (a + 1))) = true := by
  rw [recInvB, ht, hd] at hinv
  simp only [decide_eq_true_eq] at hinv
  simp only [recInvB, getFieldD_setField_ne r (show ("habitaciones" : String) ≠
    "habitaciones_disponibles" by decide), getFieldD_setField_self, ht,
    decide_eq_true_eq]
  omega

theorem hotelCreate_result {h : HotelSelf} {fs : FileState} {b : Bool}
    {oi : Option Int} {es' : List Entry}
    (he : hotelCreate h fs = (b, oi, .list es')) :
    es' = createRead fs ++ [.dict (hotelRecord h (nextId (createRead fs)))] := by
  have h3 := congrArg (fun p => p.2.2) he
  cases fs with
  | unreadable => simp [hotelCreate, collectionCreate] at he
  | absent =>
    simp only [hotelCreate, collectionCreate] at h3
    simpa [createRead] using h3.symm
  | emptyContent =>
    simp only [hotelCreate, collectionCreate] at h3
    simpa [createRead] using h3.symm
  | invalidJson =>
    simp only [hotelCreate, collectionCreate] at h3
    simpa [createRead] using h3.symm
  | notAList =>
    simp only [hotelCreate, collectionCreate] at h3
    simpa [createRead] using h3.symm
  | list es =>
    simp only [hotelCreate, collectionCreate] at h3
    simpa [createRead] using h3.symm

/-- C1 (amended): `reserve_room` and `cancel_reservation` preserve the
per-record invariant `0 <= rooms_available <= rooms_total` at every position
of the stored collection (they are blocked at the bounds), and
`Hotel.create` preserves it for existing records and establishes it on the
new record whenever the requested capacity is nonnegative; `modify_info`,
however, is a further transition on `rooms_available` that can break the
lower bound, so the invariant does not hold at all times and `reserve_room`
and `cancel_reservation` are not the only transitions on that field. -/
theorem hotel_invariant :
    (∀ (v : Value) (es es' : List Entry) (fs' : FileState),
      reserveRoom v (.list es) = (.ok true, fs') → fs' = .list es' →
      List.Forall₂ (fun e e' => entryInvB e = true → entryInvB e' = true) es es') ∧
    (∀ (v : Value) (es es' : List Entry) (fs' : FileState),
      cancelReservation v (.list es) = (.ok true, fs') → fs' = .list es' →
      List.Forall₂ (fun e e' => entryInvB e = true → entryInvB e' = true) es es') ∧
    (∀ (h : HotelSelf) (fs : FileState) (b : Bool) (oi : Option Int)
        (es' : List Entry),
      0 ≤ h.habitaciones →
      hotelCreate h fs = (b, oi, .list es') →
      (∀ e ∈ createRead fs, entryInvB e = true) →
      ∀ e ∈ es', entryInvB e = true) := by
  refine ⟨?_, ?_, ?_⟩
  · intro v es es' fs' h hfs'
    subst hfs'
    obtain ⟨es0, es1, heq, hfs1, hscan⟩ := reserveRoom_ok_true h
    rw [FileState.list.injEq] at heq hfs1
    subst heq
    subst hfs1
    obtain ⟨pre, r, a, post, h1, _, _, hd, ha, h6⟩ := reserveScan_updated hscan
    subst h1
    subst h6
    refine forall2_frame (fun e hi => hi) ?_ pre post
    intro hi
    exact recInvB_dec hd ha hi
  · intro v es es' fs' h hfs'
    subst hfs'
    obtain ⟨es0, es1, heq, hfs1, hscan⟩ := cancelReservation_ok_true h
    rw [FileState.list.injEq] at heq hfs1
    subst heq
    subst hfs1
    obtain ⟨pre, r, a, t, post, h1, _, _, hd, ht, hat, h7⟩ := cancelScan_updated hscan
    subst h1
    subst h7
    refine forall2_frame (fun e hi => hi) ?_ pre post
    intro hi
    exact recInvB_inc hd ht hat hi
  · intro hS fs b oi es' hnn he hall
    rw [hotelCreate_result he]
    intro e hmem
    rcases List.mem_append.mp hmem with hmem | hmem
    · exact hall e hmem
    · rw [List.mem_singleton.mp hmem]
      show recInvB (hotelRecord hS (nextId (createRead fs))) = true
      have hred : recInvB (hotelRecord hS (nextId (createRead fs))) =
          decide (0 ≤ hS.habitaciones ∧ hS.habitaciones ≤ hS.habitaciones) := rfl
      rw [hred]
      simp only [decide_eq_true_eq]
      omega

/-- C1 counterexample: a record satisfying the invariant (30 of 50 rooms
available, 20 occupied), after `modify_info` with a new total of 10 rooms,
stores `rooms_available = -10`, violating `0 <= rooms_available`. -/
theorem hotel_invariant_cex :
    modifyInfo (.vInt 1) none none (some 10)
        (.list [.dict [("id", .vInt 1), ("habitaciones", .vInt 50),
                       ("habitaciones_disponibles", .vInt 30)]]) =
      (.ok true, .list [.dict [("id", .vInt 1), ("habitaciones", .vInt 10),
                       ("habitaciones_disponibles", .vInt (-10))]]) ∧
    entryInvB (.dict [("id", .vInt 1), ("habitaciones", .vInt 50),
                       ("habitaciones_disponibles", .vInt 30)]) = true ∧
    entryInvB (.dict [("id", .vInt 1), ("habitaciones", .vInt 10),
                       ("habitaciones_disponibles", .vInt (-10))]) = false := by
  refine ⟨by decide, by decide, by decide⟩

/-- C5: when `modify_info` receives a new `rooms_total` for an existing
hotel whose counters are stored as integers, the stored `rooms_available`
is re-derived as `new_total - (old_total - old_available)` with no
clamping (so the concrete run above can go negative), and the scenario
`modify(rooms_total=75)` on a hotel created with `rooms_total=50` yields
`rooms_available == 75`. -/
theorem modify_rederives_avail :
    (∀ (v : Value) (n e : Option String) (hnew : Int) (es : List Entry)
        (fs' : FileState) (t a : Int),
      modifyInfo v n e (some hnew) (.list es) = (.ok true, fs') →
      storedTotal v (.list es) = some (.vInt t) →
      storedAvail v (.list es) = some (.vInt a) →
      storedTotal v fs' = some (.vInt hnew) ∧
      storedAvail v fs' = some (.vInt (hnew - (t - a)))) ∧
    ((hotelCreate ⟨"Grand Palace", "Veracruz", 50⟩ .absent).2.2 =
        .list [.dict (hotelRecord ⟨"Grand Palace", "Veracruz", 50⟩ 1)] ∧
      (modifyInfo (.vInt 1) none none (some 75)
          (hotelCreate ⟨"Grand Palace", "Veracruz", 50⟩ .absent).2.2).1 = .ok true ∧
      storedAvail (.vInt 1)
        ((modifyInfo (.vInt 1) none none (some 75)
          (hotelCreate ⟨"Grand Palace", "Veracruz", 50⟩ .absent).2.2).2) =
        some (.vInt 75)) := by
  constructor
  · intro v n e hnew es fs' t a h hT hA
    obtain ⟨es0, es', heq, hfs', hscan⟩ := modifyInfo_ok_true h
    rw [FileState.list.injEq] at heq
    subst heq
    obtain ⟨pre, r, r', post, h1, h2, h3, h4, h5⟩ := modifyScan_some hscan
    rw [storedTotal, h1, findRecord_append_skip h2, findRecord_cons_match h3] at hT
    rw [storedAvail, h1, findRecord_append_skip h2, findRecord_cons_match h3] at hA
    simp only [Option.map_some', Option.some_inj] at hT hA
    obtain ⟨hT', hA', hid⟩ := updateHotelData_fields hT hA h4
    have hm' : idMatchesV r' v = true := by rw [hid]; exact h3
    constructor
    · rw [hfs', h5, storedTotal, findRecord_append_skip h2, findRecord_cons_match hm']
      simp [hT']
    · rw [hfs', h5, storedAvail, findRecord_append_skip h2, findRecord_cons_match hm']
      simp [hA']
  · refine ⟨by decide, by decide, by decide⟩

/-- C8 (amended): the collection load returns `(False, [])` without raising
for an absent file, whitespace-only content, invalid JSON and a non-array
top level; an unreadable file, however, raises OSError to the caller (the
load catches only JSONDecodeError). -/
theorem loadJsonFile_spec :
    loadJsonFile .absent = .ok (false, []) ∧
    loadJsonFile .emptyContent = .ok (false, []) ∧
    loadJsonFile .invalidJson = .ok (false, []) ∧
    loadJsonFile .notAList = .ok (false, []) ∧
    loadJsonFile .unreadable = .error .osError :=
  ⟨rfl, rfl, rfl, rfl, rfl⟩

/-- C8 counterexample: on an unreadable file the load does not return the
soft failure `(False, [])`; it raises. -/
theorem loadJsonFile_cex : loadJsonFile .unreadable ≠ .ok (false, []) := by decide

/-- C9 (amended): `delete` removes every dict record whose id matches and
also drops every non-dict entry, returning true precisely when at least one
element was removed; it returns false exactly when the load fails soft or
the loaded collection contains neither a matching record nor a non-dict
entry (an unreadable file instead raises), and whenever it returns false
the stored collection is left unchanged. -/
theorem entityDelete_spec :
    (∀ (v : Value) (es : List Entry),
      (∃ e ∈ es, entryMatches v e = true ∨ e = Entry.other) →
      ∃ es', entityDelete v (.list es) = (.ok true, .list es') ∧
        ∀ e ∈ es', entryMatches v e = false ∧ e ≠ Entry.other) ∧
    (∀ (v : Value) (fs : FileState),
      loadJsonFile fs = .ok (false, []) → entityDelete v fs = (.ok false, fs)) ∧
    (∀ (v : Value) (es : List Entry),
      (∀ e ∈ es, entryMatches v e = false ∧ e ≠ Entry.other) →
      entityDelete v (.list es) = (.ok false, .list es)) ∧
    (∀ (v : Value) (fs fs' : FileState) (res : Except PyErr Bool),
      entityDelete v fs = (res, fs') → res = .ok false → fs' = fs) := by
  have hkeep : ∀ (v : Value) (e : Entry),
      ((match e with
        | .dict r => !(idMatchesV r v)
        | .other => false) = true) ↔ (entryMatches v e = false ∧ e ≠ Entry.other) := by
    intro v e
    cases e with
    | dict r => simp [entryMatches]
    | other => simp [entryMatches]
  refine ⟨?_, ?_, ?_, ?_⟩
  · intro v es ⟨e, hmem, he⟩
    have hne : (es.filter fun e =>
        match e with
        | .dict r => !(idMatchesV r v)
        | .other => false).length ≠ es.length := by
      intro hlen
      have hself := (List.filter_sublist (l := es)).eq_of_length hlen
      have := (List.filter_eq_self.mp hself) e hmem
      rw [hkeep] at this
      rcases he with he | he
      · rw [this.1] at he; exact Bool.false_ne_true he
      · exact this.2 he
    refine ⟨es.filter fun e =>
        match e with
        | .dict r => !(idMatchesV r v)
        | .other => false, ?_, ?_⟩
    · simp only [entityDelete, loadJsonFile]
      rw [if_neg hne]
    · intro x hx
      rw [← hkeep v x]
      exact (List.mem_filter.mp hx).2
  · intro v fs h
    cases fs <;> simp_all [entityDelete, loadJsonFile]
  · intro v es hall
    have heq : es.filter (fun e =>
        match e with
        | .dict r => !(idMatchesV r v)
        | .other => false) = es :=
      List.filter_eq_self.mpr fun e hmem => (hkeep v e).mpr (hall e hmem)
    simp only [entityDelete, loadJsonFile]
    rw [if_pos (by rw [heq])]
  · intro v fs fs' res h hres
    subst hres
    cases fs with
    | list es =>
      simp only [entityDelete, loadJsonFile] at h
      split at h
      · rw [Prod.mk.injEq] at h
        exact h.2.symm
      · rw [Prod.mk.injEq] at h
        exact absurd h.1 (by simp)
    | absent => simpa [entityDelete, loadJsonFile, eq_comm] using congrArg Prod.snd h
    | unreadable => simp [entityDelete, loadJsonFile, Prod.ext_iff] at h
    | emptyContent => simpa [entityDelete, loadJsonFile, eq_comm] using congrArg Prod.snd h
    | invalidJson => simpa [entityDelete, loadJsonFile, eq_comm] using congrArg Prod.snd h
    | notAList => simpa [entityDelete, loadJsonFile, eq_comm] using congrArg Prod.snd h

/-- C9 counterexample: a collection holding only a non-dict entry has no
record with id 1, yet `delete` returns true (it silently drops the junk
entry), contradicting the claimed return-false condition. -/
theorem entityDelete_cex :
    entityDelete (.vInt 1) (.list [Entry.other]) = (.ok true, .list []) ∧
    findRecord (.vInt 1) [Entry.other] = none :=
  ⟨by decide, by decide⟩

/-! C6 material: the next-id computation. -/

/-- The next-id computation as the claim words it: every entry contributes
its id, with non-record entries, missing ids and non-numeric ids all
treated as 0; 1 for an empty collection, max + 1 otherwise.  This is the
specification-side rendering, written only to be compared against the
code's `nextId`. -/
def claimIdVal : Entry → Int
  | .dict r =>
    match getFieldD r "id" (.vInt 0) with
    | .vInt n => n
    | _ => 0
  | .other => 0

def specNextId (es : List Entry) : Int :=
  if es.isEmpty then 1
  else ((es.map claimIdVal).foldl max 0) + 1

/-- The integer ids of the dict entries (missing id defaults to 0); used to
state what `nextId` computes on well-typed collections. -/
def intIdList (es : List Entry) : List Int :=
  es.filterMap fun e =>
    match e with
    | .dict r =>
      match getFieldD r "id" (.vInt 0) with
      | .vInt n => some n
      | _ => none
    | .other => none

/-- The id a dict entry carries is an integer (missing ids count as the
integer default 0); non-dict entries are unconstrained. -/
def entryIdIsInt : Entry → Bool
  | .dict r =>
    match getFieldD r "id" (.vInt 0) with
    | .vInt _ => true
    | _ => false
  | .other => true

/-- Every id present on a dict entry is an integer. -/
def intIdsOnly (es : List Entry) : Bool :=
  es.all entryIdIsInt

def listMax? : List Int → Option Int
  | [] => none
  | x :: xs => some (xs.foldl max x)

/-- Iterate a create operation n times on the third component (the file). -/
def iterCreate (step : FileState → Bool × Option Int × FileState) :
    Nat → FileState → FileState
  | 0, fs => fs
  | n + 1, fs => (step (iterCreate step n fs)).2.2

/-- The collection obtained by creating records with ids 1..n in order. -/
def stdRecs (f : Int → Record) (n : Nat) : List Entry :=
  (List.range n).map fun k => .dict (f ((k : Int) + 1))

theorem foldlM_pyMax2_ints (a : Int) (l : List Int) :
    (l.map Value.vInt).foldlM pyMax2 (Value.vInt a) =
      (.ok (.vInt (l.foldl max a)) : Except PyErr Value) := by
  induction l generalizing a with
  | nil => rfl
  | cons x xs ih => simpa [pyMax2] using ih (max a x)

theorem dictIds_cons_dict (r : Record) (rest : List Entry) :
    dictIds (.dict r :: rest) = getFieldD r "id" (.vInt 0) :: dictIds rest := by
  simp [dictIds]

theorem dictIds_cons_other (rest : List Entry) :
    dictIds (.other :: rest) = dictIds rest := by
  simp [dictIds]

theorem intIdList_cons_int {r : Record} {n : Int}
    (hid : getFieldD r "id" (.vInt 0) = .vInt n) (rest : List Entry) :
    intIdList (.dict r :: rest) = n :: intIdList rest := by
  simp [intIdList, hid]

theorem intIdList_cons_other (rest : List Entry) :
    intIdList (.other :: rest) = intIdList rest := by
  simp [intIdList]

theorem dictIds_of_intIds {es : List Entry} (h : intIdsOnly es = true) :
    dictIds es = (intIdList es).map Value.vInt := by
  induction es with
  | nil => rfl
  | cons e rest ih =>
    rw [intIdsOnly, List.all_cons, Bool.and_eq_true] at h
    obtain ⟨h1, h2⟩ := h
    cases e with
    | dict r =>
      rw [entryIdIsInt] at h1
      cases hid : getFieldD r "id" (.vInt 0) with
      | vInt n =>
        rw [dictIds_cons_dict, hid, intIdList_cons_int hid, List.map_cons, ih h2]
      | vStr s => rw [hid] at h1; simp at h1
      | vNull => rw [hid] at h1; simp at h1
    | other => rw [dictIds_cons_other, intIdList_cons_other, ih h2]

theorem nextId_of_noIds {es : List Entry} (hids : intIdsOnly es = true)
    (h : intIdList es = []) : nextId es = 1 := by
  by_cases hemp : es.isEmpty = true
  · simp [nextId, hemp]
  · simp only [nextId, hemp, if_false, dictIds_of_intIds hids, h, List.map_nil]
    rfl

theorem nextId_of_listMax {es : List Entry} {m : Int} (hids : intIdsOnly es = true)
    (hm : listMax? (intIdList es) = some m) : nextId es = m + 1 := by
  cases hil : intIdList es with
  | nil => rw [hil] at hm; simp [listMax?] at hm
  | cons x xs =>
    rw [hil, listMax?, Option.some_inj] at hm
    have hes : es.isEmpty = false := by
      cases es with
      | nil => simp [intIdList] at hil
      | cons e rest => rfl
    simp only [nextId, hes, if_false, dictIds_of_intIds hids, hil, List.map_cons]
    rw [show pyMaxList (Value.vInt x :: xs.map Value.vInt) =
        (xs.map Value.vInt).foldlM pyMax2 (Value.vInt x) from rfl]
    rw [foldlM_pyMax2_ints, hm]
    rfl

theorem listMax?_snoc (l : List Int) (x : Int) :
    listMax? (l ++ [x]) = some (match listMax? l with
      | none => x
      | some m => max m x) := by
  cases l with
  | nil => rfl
  | cons a as => simp [listMax?, List.foldl_append]

theorem listMax?_range_map (n : Nat) :
    listMax? ((List.range (n + 1)).map (fun k : Nat => (k : Int) + 1)) =
      some ((n : Int) + 1) := by
  induction n with
  | zero => rfl
  | succ m ih =>
    rw [List.range_succ, List.map_append, List.map_singleton, listMax?_snoc, ih]
    have : max ((m : Int) + 1) (((m + 1 : Nat) : Int) + 1) = ((m + 1 : Nat) : Int) + 1 := by
      rw [max_eq_right]
      push_cast
      omega
    simp [this]

theorem intIdList_append (l1 l2 : List Entry) :
    intIdList (l1 ++ l2) = intIdList l1 ++ intIdList l2 := by
  simp [intIdList, List.filterMap_append]

theorem stdRecs_succ (f : Int → Record) (n : Nat) :
    stdRecs f (n + 1) = stdRecs f n ++ [.dict (f ((n : Int) + 1))] := by
  simp [stdRecs, List.range_succ]

theorem intIdList_stdRecs {f : Int → Record}
    (hf : ∀ i : Int, getFieldD (f i) "id" (.vInt 0) = .vInt i) (n : Nat) :
    intIdList (stdRecs f n) = (List.range n).map (fun k : Nat => (k : Int) + 1) := by
  induction n with
  | zero => rfl
  | succ m ih =>
    rw [stdRecs_succ, intIdList_append, ih, List.range_succ, List.map_append]
    simp [intIdList, hf]

theorem intIdsOnly_stdRecs {f : Int → Record}
    (hf : ∀ i : Int, getFieldD (f i) "id" (.vInt 0) = .vInt i) (n : Nat) :
    intIdsOnly (stdRecs f n) = true := by
  induction n with
  | zero => rfl
  | succ m ih =>
    rw [stdRecs_succ, intIdsOnly, List.all_append]
    rw [intIdsOnly] at ih
    simp [ih, entryIdIsInt, hf]

theorem nextId_stdRecs {f : Int → Record}
    (hf : ∀ i : Int, getFieldD (f i) "id" (.vInt 0) = .vInt i) (n : Nat) :
    nextId (stdRecs f (n + 1)) = (n : Int) + 2 := by
  have h3 := listMax?_range_map n
  rw [← intIdList_stdRecs hf (n + 1)] at h3
  rw [nextId_of_listMax (intIdsOnly_stdRecs hf (n + 1)) h3]
  ring

theorem hotelRecord_id (h : HotelSelf) (i : Int) :
    getFieldD (hotelRecord h i) "id" (.vInt 0) = .vInt i := rfl

theorem customerRecord_id (c : CustomerSelf) (i : Int) :
    getFieldD (customerRecord c i) "id" (.vInt 0) = .vInt i := rfl

theorem collectionCreate_list (f : Int → Record) (es : List Entry) :
    collectionCreate f (.list es) =
      (true, some (nextId es), .list (es ++ [.dict (f (nextId es))])) := rfl

theorem iterCreate_std {f : Int → Record}
    (hf : ∀ i : Int, getFieldD (f i) "id" (.vInt 0) = .vInt i) (n : Nat) :
    iterCreate (collectionCreate f) (n + 1) .absent = .list (stdRecs f (n + 1)) := by
  induction n with
  | zero =>
    show (collectionCreate f .absent).2.2 = _
    have : stdRecs f 1 = [.dict (f 1)] := by
      rw [show (1 : Nat) = 0 + 1 from rfl, stdRecs_succ]
      rfl
    rw [this]
    rfl
  | succ m ih =>
    show (collectionCreate f (iterCreate (collectionCreate f) (m + 1) .absent)).2.2 = _
    rw [ih, collectionCreate_list]
    show FileState.list (stdRecs f (m + 1) ++
      [.dict (f (nextId (stdRecs f (m + 1))))]) = _
    rw [nextId_stdRecs hf m, stdRecs_succ f (m + 1)]
    have : ((m : Int) + 2) = (((m + 1 : Nat)) : Int) + 1 := by push_cast; ring
    rw [this]

theorem collectionCreate_iter_id {f : Int → Record}
    (hf : ∀ i : Int, getFieldD (f i) "id" (.vInt 0) = .vInt i) (n : Nat) :
    (collectionCreate f (iterCreate (collectionCreate f) n .absent)).2.1 =
      some ((n : Int) + 1) := by
  cases n with
  | zero => rfl
  | succ m =>
    rw [iterCreate_std hf m, collectionCreate_list]
    show some (nextId (stdRecs f (m + 1))) = _
    rw [nextId_stdRecs hf m]
    have : ((m : Int) + 2) = (((m + 1 : Nat)) : Int) + 1 := by push_cast; ring
    rw [this]

/-- C6 (amended): next-id is 1 for an empty collection, and max+1 over the
dict entries' ids (missing ids defaulting to 0) whenever every id present is
an integer; but when a non-numeric id occurs, the computation falls back to
1 (the TypeError from the mixed-type max is caught) rather than treating
that id as 0.  Creating N entities in an initially empty collection still
assigns ids 1..N in creation order, for hotels and customers alike. -/
theorem nextId_spec :
    nextId [] = 1 ∧
    (∀ es : List Entry, intIdsOnly es = true → intIdList es = [] →
      nextId es = 1) ∧
    (∀ (es : List Entry) (m : Int), intIdsOnly es = true →
      listMax? (intIdList es) = some m → nextId es = m + 1) ∧
    (∀ (h : HotelSelf) (n : Nat),
      iterCreate (hotelCreate h) (n + 1) .absent =
        .list (stdRecs (hotelRecord h) (n + 1)) ∧
      intIdList (stdRecs (hotelRecord h) (n + 1)) =
        (List.range (n + 1)).map (fun k : Nat => (k : Int) + 1) ∧
      (hotelCreate h (iterCreate (hotelCreate h) n .absent)).2.1 =
        some ((n : Int) + 1)) ∧
    (∀ (c : CustomerSelf) (n : Nat),
      iterCreate (customerCreate c) (n + 1) .absent =
        .list (stdRecs (customerRecord c) (n + 1)) ∧
      intIdList (stdRecs (customerRecord c) (n + 1)) =
        (List.range (n + 1)).map (fun k : Nat => (k : Int) + 1) ∧
      (customerCreate c (iterCreate (customerCreate c) n .absent)).2.1 =
        some ((n : Int) + 1)) := by
  refine ⟨rfl, fun es h1 h2 => nextId_of_noIds h1 h2,
    fun es m h1 h2 => nextId_of_listMax h1 h2, ?_, ?_⟩
  · intro hS n
    exact ⟨iterCreate_std (hotelRecord_id hS) n,
      intIdList_stdRecs (hotelRecord_id hS) (n + 1),
      collectionCreate_iter_id (hotelRecord_id hS) n⟩
  · intro c n
    exact ⟨iterCreate_std (customerRecord_id c) n,
      intIdList_stdRecs (customerRecord_id c) (n + 1),
      collectionCreate_iter_id (customerRecord_id c) n⟩

/-- C6 counterexample: for the collection with ids {5, "x"} the claimed
treat-non-numeric-as-0 rule yields 6, but the code's max raises a caught
TypeError and the next id falls back to 1. -/
theorem nextId_cex :
    nextId [.dict [("id", .vInt 5)], .dict [("id", .vStr "x")]] = 1 ∧
    specNextId [.dict [("id", .vInt 5)], .dict [("id", .vStr "x")]] = 6 ∧
    specNextId [.dict [("id", .vInt 5)], .dict [("id", .vStr "x")]] ≠
      nextId [.dict [("id", .vInt 5)], .dict [("id", .vStr "x")]] :=
  ⟨by decide, by decide, by decide⟩

/-- C3: `Reservation.create` fails and writes nothing at all (so the hotel's
`rooms_available` is untouched) when the customer id or the hotel id does
not resolve to an existing record — whether the display comes back empty or
the customer/hotel file is unreadable; and the reservations file changes
only when the hotel-side decrement has succeeded. -/
theorem reservationCreate_checks :
    (∀ (c h : Int) (w : World),
      displayInfo (.vInt c) w.customers = .ok [] →
      reservationCreate c h w = (.ok false, w)) ∧
    (∀ (c h : Int) (w : World),
      displayInfo (.vInt c) w.customers = .error .osError →
      reservationCreate c h w = (.ok false, w)) ∧
    (∀ (c h : Int) (w : World) (rc : Record),
      displayInfo (.vInt c) w.customers = .ok rc → rc ≠ [] →
      displayInfo (.vInt h) w.hotels = .ok [] →
      reservationCreate c h w = (.ok false, w)) ∧
    (∀ (c h : Int) (w : World) (rc : Record),
      displayInfo (.vInt c) w.customers = .ok rc → rc ≠ [] →
      displayInfo (.vInt h) w.hotels = .error .osError →
      reservationCreate c h w = (.ok false, w)) ∧
    (∀ (c h : Int) (w : World) (res : Except PyErr Bool) (w' : World),
      reservationCreate c h w = (res, w') →
      w'.reservations ≠ w.reservations →
      (reserveRoom (.vInt h) w.hotels).1 = .ok true) := by
  refine ⟨?_, ?_, ?_, ?_, ?_⟩
  · intro c h w hc
    simp [reservationCreate, reservationCreateBody, hc]
  · intro c h w hc
    simp [reservationCreate, reservationCreateBody, hc]
  · intro c h w rc hc hne hh
    cases rc with
    | nil => exact absurd rfl hne
    | cons x xs => simp [reservationCreate, reservationCreateBody, hc, hh]
  · intro c h w rc hc hne hh
    cases rc with
    | nil => exact absurd rfl hne
    | cons x xs => simp [reservationCreate, reservationCreateBody, hc, hh]
  · intro c h w res w' hrun hne
    by_contra hnot
    apply hne
    have hr2 : (reservationCreate c h w).2.reservations = w'.reservations :=
      congrArg (fun p => p.2.reservations) hrun
    rw [← hr2]
    cases hdc : displayInfo (.vInt c) w.customers with
    | error e =>
      cases e <;> simp [reservationCreate, reservationCreateBody, hdc]
    | ok rc =>
      cases rc with
      | nil => simp [reservationCreate, reservationCreateBody, hdc]
      | cons x xs =>
        cases hdh : displayInfo (.vInt h) w.hotels with
        | error e =>
          cases e <;> simp [reservationCreate, reservationCreateBody, hdc, hdh]
        | ok rh =>
          cases rh with
          | nil => simp [reservationCreate, reservationCreateBody, hdc, hdh]
          | cons y ys =>
            cases hrr : reserveRoom (.vInt h) w.hotels with
            | mk res2 hs =>
              cases res2 with
              | error e =>
                cases e <;>
                  simp [reservationCreate, reservationCreateBody, hdc, hdh, hrr]
              | ok b =>
                cases b with
                | false =>
                  simp [reservationCreate, reservationCreateBody, hdc, hdh, hrr]
                | true => exact absurd (by simp [hrr]) hnot

/-! C7 material: well-formedness conditions under which no operation
raises.  The create methods are total by construction (their own
try/except catches every I/O error), so only the loading and mutating
operations need conditions. -/

def intFieldB (r : Record) (k : String) : Bool :=
  match getFieldD r k (.vInt 0) with
  | .vInt _ => true
  | _ => false

/-- A hotel entry whose two counters read back as integers (missing fields
default to the integer 0), as required for the comparisons and arithmetic
of reserve/cancel/modify not to raise TypeError. -/
def wfHotelEntry : Entry → Bool
  | .dict r => intFieldB r "habitaciones" && intFieldB r "habitaciones_disponibles"
  | .other => true

def wfHotelEntries : FileState → Bool
  | .list es => es.all wfHotelEntry
  | _ => true

def readableFile : FileState → Bool
  | .unreadable => false
  | _ => true

def wfHotelsFile (fs : FileState) : Bool :=
  readableFile fs && wfHotelEntries fs

/-- A reservation entry carrying both foreign keys, as required for the
raw subscripts in `Reservation.cancel` not to raise KeyError. -/
def wfResaEntry : Entry → Bool
  | .dict r => (getField? r "hotel_id").isSome && (getField? r "customer_id").isSome
  | .other => true

def wfResaEntries : FileState → Bool
  | .list es => es.all wfResaEntry
  | _ => true

def wfResaFile (fs : FileState) : Bool :=
  readableFile fs && wfResaEntries fs

theorem reserveScan_total {v : Value} {es : List Entry}
    (h : es.all wfHotelEntry = true) : ∃ res, reserveScan v es = .ok res := by
  induction es with
  | nil => exact ⟨.notFound, rfl⟩
  | cons e rest ih =>
    rw [List.all_cons, Bool.and_eq_true] at h
    obtain ⟨h1, h2⟩ := h
    obtain ⟨res, hres⟩ := ih h2
    cases e with
    | dict r =>
      by_cases hm : idMatchesV r v
      · rw [wfHotelEntry, Bool.and_eq_true] at h1
        obtain ⟨hT1, hA1⟩ := h1
        rw [intFieldB] at hA1
        cases hd : getFieldD r "habitaciones_disponibles" (.vInt 0) with
        | vInt a =>
          by_cases ha : a ≤ 0
          · exact ⟨.earlyFalse, by rw [reserveScan, if_pos hm, hd]; simp [pyLeInt, ha]⟩
          · exact ⟨.updated (.dict (setField r "habitaciones_disponibles"
                (.vInt (a - 1))) :: rest),
              by rw [reserveScan, if_pos hm, hd]; simp [pyLeInt, ha, pySubOne]⟩
        | vStr s => rw [hd] at hA1; simp at hA1
        | vNull => rw [hd] at hA1; simp at hA1
      · exact ⟨res.prepend (.dict r),
          by rw [reserveScan_cons_skip (by simpa [entryMatches] using hm), hres]⟩
    | other =>
      exact ⟨res.prepend .other,
        by rw [reserveScan_cons_skip (by simp [entryMatches]), hres]⟩

theorem cancelScan_total {v : Value} {es : List Entry}
    (h : es.all wfHotelEntry = true) : ∃ res, cancelScan v es = .ok res := by
  induction es with
  | nil => exact ⟨.notFound, rfl⟩
  | cons e rest ih =>
    rw [List.all_cons, Bool.and_eq_true] at h
    obtain ⟨h1, h2⟩ := h
    obtain ⟨res, hres⟩ := ih h2
    cases e with
    | dict r =>
      by_cases hm : idMatchesV r v
      · rw [wfHotelEntry, Bool.and_eq_true, intFieldB, intFieldB] at h1
        cases hd : getFieldD r "habitaciones_disponibles" (.vInt 0) with
        | vInt a =>
          cases ht : getFieldD r "habitaciones" (.vInt 0) with
          | vInt t =>
            by_cases hge : t ≤ a
            · exact ⟨.earlyFalse, by rw [cancelScan, if_pos hm, hd, ht]; simp [pyGe, hge]⟩
            · exact ⟨.updated (.dict (setField r "habitaciones_disponibles"
                  (.vInt (a + 1))) :: rest),
                by rw [cancelScan, if_pos hm, hd, ht]; simp [pyGe, hge, pyAddOne]⟩
          | vStr s => rw [ht] at h1; simp at h1
          | vNull => rw [ht] at h1; simp at h1
        | vStr s => rw [hd] at h1; simp at h1
        | vNull => rw [hd] at h1; simp at h1
      · exact ⟨res.prepend (.dict r),
          by rw [cancelScan_cons_skip (by simpa [entryMatches] using hm), hres]⟩
    | other =>
      exact ⟨res.prepend .other,
        by rw [cancelScan_cons_skip (by simp [entryMatches]), hres]⟩

theorem updateHotelData_total {r : Record} (n e : Option String) (hab : Option Int)
    (hT : intFieldB r "habitaciones" = true)
    (hA : intFieldB r "habitaciones_disponibles" = true) :
    ∃ r', updateHotelData r n e hab = .ok r' := by
  cases hab with
  | none => exact ⟨_, rfl⟩
  | some hnew =>
    rw [intFieldB] at hT hA
    cases ht : getFieldD r "habitaciones" (.vInt 0) with
    | vInt t =>
      cases ha : getFieldD r "habitaciones_disponibles" (.vInt 0) with
      | vInt a =>
        have ht2 : getFieldD (optSetStr (optSetStr r "nombre" n) "estado" e)
            "habitaciones" (.vInt 0) = .vInt t := by
          rw [getFieldD_optSetStr_ne _ (by decide),
            getFieldD_optSetStr_ne _ (by decide), ht]
        have ha2 : getFieldD (optSetStr (optSetStr r "nombre" n) "estado" e)
            "habitaciones_disponibles" (.vInt 0) = .vInt a := by
          rw [getFieldD_optSetStr_ne _ (by decide),
            getFieldD_optSetStr_ne _ (by decide), ha]
        exact ⟨setField (setField (optSetStr (optSetStr r "nombre" n) "estado" e)
            "habitaciones" (.vInt hnew)) "habitaciones_disponibles"
            (.vInt (hnew - (t - a))),
          by simp [updateHotelData, ht2, ha2, pySub]⟩
      | vStr s => rw [ha] at hA; simp at hA
      | vNull => rw [ha] at hA; simp at hA
    | vStr s => rw [ht] at hT; simp at hT
    | vNull => rw [ht] at hT; simp at hT

theorem modifyScan_total {v : Value} {n e : Option String} {hab : Option Int}
    {es : List Entry} (h : es.all wfHotelEntry = true) :
    ∃ o, modifyScan v n e hab es = .ok o := by
  induction es with
  | nil => exact ⟨none, rfl⟩
  | cons x rest ih =>
    rw [List.all_cons, Bool.and_eq_true] at h
    obtain ⟨h1, h2⟩ := h
    obtain ⟨o, ho⟩ := ih h2
    cases x with
    | dict r =>
      by_cases hm : idMatchesV r v
      · rw [wfHotelEntry, Bool.and_eq_true] at h1
        obtain ⟨r', hr'⟩ := updateHotelData_total n e hab h1.1 h1.2
        exact ⟨some (.dict r' :: rest), by rw [modifyScan, if_pos hm, hr']⟩
      · exact ⟨o.map (.dict r :: ·), by rw [modifyScan, if_neg hm, ho]⟩
    | other => exact ⟨o.map (.other :: ·), by rw [modifyScan, ho]⟩

theorem displayInfo_error_osError {v : Value} {fs : FileState} {e : PyErr}
    (h : displayInfo v fs = .error e) : e = .osError := by
  cases fs with
  | unreadable =>
    simp only [displayInfo, loadJsonFile] at h
    exact (Except.error.injEq _ _ ▸ h).symm
  | list es =>
    cases hf : findRecord v es <;> simp [displayInfo, loadJsonFile, hf] at h
  | absent => simp [displayInfo, loadJsonFile] at h
  | emptyContent => simp [displayInfo, loadJsonFile] at h
  | invalidJson => simp [displayInfo, loadJsonFile] at h
  | notAList => simp [displayInfo, loadJsonFile] at h

theorem reserveRoom_wf_result {v : Value} {fs : FileState}
    (h : wfHotelEntries fs = true) :
    (∃ b, (reserveRoom v fs).1 = .ok b) ∨ (reserveRoom v fs).1 = .error .osError := by
  cases fs with
  | unreadable => exact Or.inr rfl
  | list es =>
    left
    obtain ⟨res, hres⟩ := reserveScan_total (v := v) (by simpa [wfHotelEntries] using h)
    cases res with
    | notFound => exact ⟨false, by simp [reserveRoom, loadJsonFile, hres]⟩
    | earlyFalse => exact ⟨false, by simp [reserveRoom, loadJsonFile, hres]⟩
    | updated es' => exact ⟨true, by simp [reserveRoom, loadJsonFile, hres]⟩
  | absent => exact Or.inl ⟨false, rfl⟩
  | emptyContent => exact Or.inl ⟨false, rfl⟩
  | invalidJson => exact Or.inl ⟨false, rfl⟩
  | notAList => exact Or.inl ⟨false, rfl⟩

theorem cancelReservation_wf_ok {v : Value} {fs : FileState}
    (h : wfHotelsFile fs = true) : ∃ b, (cancelReservation v fs).1 = .ok b := by
  rw [wfHotelsFile, Bool.and_eq_true] at h
  cases fs with
  | unreadable => simp [readableFile] at h
  | list es =>
    obtain ⟨res, hres⟩ := cancelScan_total (v := v)
      (by simpa [wfHotelEntries] using h.2)
    cases res with
    | notFound => exact ⟨false, by simp [cancelReservation, loadJsonFile, hres]⟩
    | earlyFalse => exact ⟨false, by simp [cancelReservation, loadJsonFile, hres]⟩
    | updated es' => exact ⟨true, by simp [cancelReservation, loadJsonFile, hres]⟩
  | absent => exact ⟨false, rfl⟩
  | emptyContent => exact ⟨false, rfl⟩
  | invalidJson => exact ⟨false, rfl⟩
  | notAList => exact ⟨false, rfl⟩

theorem reservationCreate_wf_ok (c h : Int) (w : World)
    (hw : wfHotelEntries w.hotels = true) :
    ∃ b, (reservationCreate c h w).1 = .ok b := by
  cases hdc : displayInfo (.vInt c) w.customers with
  | error e =>
    rw [displayInfo_error_osError hdc] at hdc
    exact ⟨false, by simp [reservationCreate, reservationCreateBody, hdc]⟩
  | ok rc =>
    cases rc with
    | nil => exact ⟨false, by simp [reservationCreate, reservationCreateBody, hdc]⟩
    | cons x xs =>
      cases hdh : displayInfo (.vInt h) w.hotels with
      | error e =>
        rw [displayInfo_error_osError hdh] at hdh
        exact ⟨false, by simp [reservationCreate, reservationCreateBody, hdc, hdh]⟩
      | ok rh =>
        cases rh with
        | nil => exact ⟨false, by simp [reservationCreate, reservationCreateBody, hdc, hdh]⟩
        | cons y ys =>
          cases hrr : reserveRoom (.vInt h) w.hotels with
          | mk res2 hs =>
            rcases reserveRoom_wf_result (v := .vInt h) hw with ⟨b, hb⟩ | hb <;>
              rw [hrr] at hb
            · cases b with
              | false =>
                exact ⟨false, by simp [reservationCreate, reservationCreateBody,
                  hdc, hdh, hrr, show res2 = .ok false from hb]⟩
              | true =>
                cases hres : w.reservations with
                | unreadable =>
                  exact ⟨false, by simp [reservationCreate, reservationCreateBody,
                    hdc, hdh, hrr, show res2 = .ok true from hb, hres]⟩
                | absent =>
                  exact ⟨true, by simp [reservationCreate, reservationCreateBody,
                    hdc, hdh, hrr, show res2 = .ok true from hb, hres]⟩
                | emptyContent =>
                  exact ⟨true, by simp [reservationCreate, reservationCreateBody,
                    hdc, hdh, hrr, show res2 = .ok true from hb, hres]⟩
                | invalidJson =>
                  exact ⟨true, by simp [reservationCreate, reservationCreateBody,
                    hdc, hdh, hrr, show res2 = .ok true from hb, hres]⟩
                | notAList =>
                  exact ⟨true, by simp [reservationCreate, reservationCreateBody,
                    hdc, hdh, hrr, show res2 = .ok true from hb, hres]⟩
                | list es =>
                  exact ⟨true, by simp [reservationCreate, reservationCreateBody,
                    hdc, hdh, hrr, show res2 = .ok true from hb, hres]⟩
            · exact ⟨false, by simp [reservationCreate, reservationCreateBody,
                hdc, hdh, hrr, show res2 = .error .osError from hb]⟩

theorem reservationCancel_wf_ok (v : Value) (w : World)
    (hr : wfResaFile w.reservations = true) (hh : wfHotelsFile w.hotels = true) :
    ∃ b, (reservationCancel v w).1 = .ok b := by
  rw [wfResaFile, Bool.and_eq_true] at hr
  cases hres : w.reservations with
  | unreadable => rw [hres] at hr; simp [readableFile] at hr
  | absent => exact ⟨false, by simp [reservationCancel, hres, loadJsonFile]⟩
  | emptyContent => exact ⟨false, by simp [reservationCancel, hres, loadJsonFile]⟩
  | invalidJson => exact ⟨false, by simp [reservationCancel, hres, loadJsonFile]⟩
  | notAList => exact ⟨false, by simp [reservationCancel, hres, loadJsonFile]⟩
  | list es =>
    cases hf : findRecord v es with
    | none => exact ⟨false, by simp [reservationCancel, hres, loadJsonFile, hf]⟩
    | some r =>
      cases r with
      | nil => exact ⟨false, by simp [reservationCancel, hres, loadJsonFile, hf]⟩
      | cons p ps =>
        obtain ⟨pre, post, hdecomp, _, _⟩ := findRecord_eq_some hf
        have hmem : Entry.dict (p :: ps) ∈ es := by
          rw [hdecomp]; exact List.mem_append_right _ (List.mem_cons_self _ _)
        have hwfr : wfResaEntry (.dict (p :: ps)) = true := by
          rw [hres] at hr
          have hall := hr.2
          rw [wfResaEntries] at hall
          exact List.all_eq_true.mp hall _ hmem
        rw [wfResaEntry, Bool.and_eq_true, Option.isSome_iff_exists,
          Option.isSome_iff_exists] at hwfr
        obtain ⟨⟨hid, hhid⟩, ⟨cid, hcid⟩⟩ := hwfr
        obtain ⟨b2, hb2⟩ : ∃ b, (cancelReservation hid w.hotels).1 = Except.ok b :=
          cancelReservation_wf_ok hh
        cases hcc : cancelReservation hid w.hotels with
        | mk res2 hs =>
          rw [hcc] at hb2
          cases b2 with
          | false =>
            exact ⟨false, by simp [reservationCancel, hres, loadJsonFile, hf,
              hhid, hcid, hcc, show res2 = .ok false from hb2]⟩
          | true =>
            exact ⟨true, by simp [reservationCancel, hres, loadJsonFile, hf,
              hhid, hcid, hcc, show res2 = .ok true from hb2]⟩

/-- C7 (amended): with readable files whose hotel records store integer
counters and whose reservation records carry both foreign keys, every
public operation terminates with a boolean (or record) result — the create
methods do so unconditionally, their own try/except absorbing even an
unreadable file.  An unreadable file, however, makes the loading operations
(delete, display, modify, reserve, cancel, Reservation.cancel) raise
OSError to the caller, so not every operation degrades to a boolean. -/
theorem ops_degrade_to_bool :
    (∀ (v : Value) (fs : FileState), readableFile fs = true →
      ∃ b, (entityDelete v fs).1 = .ok b) ∧
    (∀ (v : Value) (fs : FileState), readableFile fs = true →
      ∃ r, displayInfo v fs = .ok r) ∧
    (∀ (v : Value) (n e : Option String) (hab : Option Int) (fs : FileState),
      wfHotelsFile fs = true → ∃ b, (modifyInfo v n e hab fs).1 = .ok b) ∧
    (∀ (v : Value) (n e t : Option String) (fs : FileState),
      readableFile fs = true → ∃ b, (customerModifyInfo v n e t fs).1 = .ok b) ∧
    (∀ (v : Value) (fs : FileState), wfHotelsFile fs = true →
      ∃ b, (reserveRoom v fs).1 = .ok b) ∧
    (∀ (v : Value) (fs : FileState), wfHotelsFile fs = true →
      ∃ b, (cancelReservation v fs).1 = .ok b) ∧
    (∀ (c h : Int) (w : World), wfHotelEntries w.hotels = true →
      ∃ b, (reservationCreate c h w).1 = .ok b) ∧
    (∀ (v : Value) (w : World), wfResaFile w.reservations = true →
      wfHotelsFile w.hotels = true → ∃ b, (reservationCancel v w).1 = .ok b) := by
  refine ⟨?_, ?_, ?_, ?_, ?_, ?_, reservationCreate_wf_ok, reservationCancel_wf_ok⟩
  · intro v fs h
    cases fs with
    | unreadable => simp [readableFile] at h
    | list es =>
      simp only [entityDelete, loadJsonFile]
      split
      · exact ⟨false, rfl⟩
      · exact ⟨true, rfl⟩
    | absent => exact ⟨false, rfl⟩
    | emptyContent => exact ⟨false, rfl⟩
    | invalidJson => exact ⟨false, rfl⟩
    | notAList => exact ⟨false, rfl⟩
  · intro v fs h
    cases fs with
    | unreadable => simp [readableFile] at h
    | list es =>
      cases hf : findRecord v es with
      | none => exact ⟨[], by simp [displayInfo, loadJsonFile, hf]⟩
      | some r => exact ⟨r, by simp [displayInfo, loadJsonFile, hf]⟩
    | absent => exact ⟨[], rfl⟩
    | emptyContent => exact ⟨[], rfl⟩
    | invalidJson => exact ⟨[], rfl⟩
    | notAList => exact ⟨[], rfl⟩
  · intro v n e hab fs h
    rw [wfHotelsFile, Bool.and_eq_true] at h
    cases fs with
    | unreadable => simp [readableFile] at h
    | list es =>
      obtain ⟨o, ho⟩ : ∃ o, modifyScan v n e hab es = Except.ok o :=
        modifyScan_total (by simpa [wfHotelEntries] using h.2)
      cases o with
      | none => exact ⟨false, by simp [modifyInfo, loadJsonFile, ho]⟩
      | some es' => exact ⟨true, by simp [modifyInfo, loadJsonFile, ho]⟩
    | absent => exact ⟨false, rfl⟩
    | emptyContent => exact ⟨false, rfl⟩
    | invalidJson => exact ⟨false, rfl⟩
    | notAList => exact ⟨false, rfl⟩
  · intro v n e t fs h
    cases fs with
    | unreadable => simp [readableFile] at h
    | list es =>
      cases hs : customerModifyScan v n e t es with
      | none => exact ⟨false, by simp [customerModifyInfo, loadJsonFile, hs]⟩
      | some es' => exact ⟨true, by simp [customerModifyInfo, loadJsonFile, hs]⟩
    | absent => exact ⟨false, rfl⟩
    | emptyContent => exact ⟨false, rfl⟩
    | invalidJson => exact ⟨false, rfl⟩
    | notAList => exact ⟨false, rfl⟩
  · intro v fs h
    rw [wfHotelsFile, Bool.and_eq_true] at h
    rcases reserveRoom_wf_result (v := v) h.2 with hb | hb
    · exact hb
    · cases fs with
      | unreadable => simp [readableFile] at h
      | list es =>
        obtain ⟨res, hres⟩ := reserveScan_total (v := v)
          (by simpa [wfHotelEntries] using h.2)
        cases res <;> simp [reserveRoom, loadJsonFile, hres] at hb
      | absent => simp [reserveRoom, loadJsonFile] at hb
      | emptyContent => simp [reserveRoom, loadJsonFile] at hb
      | invalidJson => simp [reserveRoom, loadJsonFile] at hb
      | notAList => simp [reserveRoom, loadJsonFile] at hb
  · exact fun v fs h => cancelReservation_wf_ok h

/-- C7 counterexample: on an unreadable Hotels.json, `Hotel.delete` raises
OSError to the caller instead of terminating with a boolean result. -/
theorem ops_degrade_to_bool_cex :
    (entityDelete (.vInt 1) FileState.unreadable).1 = .error .osError := rfl

/-! Witnesses: each claim theorem with hypotheses applied at a concrete
input. -/

theorem hotel_invariant_witness :
    List.Forall₂ (fun e e' => entryInvB e = true → entryInvB e' = true)
      [Entry.dict [("id", .vInt 1), ("habitaciones", .vInt 2),
        ("habitaciones_disponibles", .vInt 2)]]
      [Entry.dict [("id", .vInt 1), ("habitaciones", .vInt 2),
        ("habitaciones_disponibles", .vInt 1)]] :=
  hotel_invariant.1 (.vInt 1) _ _
    (.list [Entry.dict [("id", .vInt 1), ("habitaciones", .vInt 2),
      ("habitaciones_disponibles", .vInt 1)]]) (by decide) rfl

theorem reserve_cancel_round_trip_witness :
    storedAvail (.vInt 1) (.list [Entry.dict [("id", .vInt 1),
        ("habitaciones", .vInt 2), ("habitaciones_disponibles", .vInt 2)]]) =
      storedAvail (.vInt 1) (.list [Entry.dict [("id", .vInt 1),
        ("habitaciones", .vInt 2), ("habitaciones_disponibles", .vInt 2)]]) ∧
    ∃ r, displayInfo (.vInt 1) (.list [Entry.dict [("id", .vInt 1),
        ("habitaciones", .vInt 2), ("habitaciones_disponibles", .vInt 2)]]) = .ok r ∧
      some (getFieldD r "habitaciones_disponibles" (.vInt 0)) =
        storedAvail (.vInt 1) (.list [Entry.dict [("id", .vInt 1),
          ("habitaciones", .vInt 2), ("habitaciones_disponibles", .vInt 2)]]) :=
  reserve_cancel_round_trip (.vInt 1)
    (.list [Entry.dict [("id", .vInt 1), ("habitaciones", .vInt 2),
      ("habitaciones_disponibles", .vInt 2)]])
    (.list [Entry.dict [("id", .vInt 1), ("habitaciones", .vInt 2),
      ("habitaciones_disponibles", .vInt 1)]])
    (.list [Entry.dict [("id", .vInt 1), ("habitaciones", .vInt 2),
      ("habitaciones_disponibles", .vInt 2)]])
    (by decide) (by decide)

theorem reservationCreate_checks_witness :
    reservationCreate 1 1 ⟨.absent, .absent, .absent⟩ =
      (.ok false, ⟨.absent, .absent, .absent⟩) :=
  reservationCreate_checks.1 1 1 ⟨.absent, .absent, .absent⟩ (by decide)

theorem reserveRoom_spec_witness :
    ∃ a : Int, storedAvail (.vInt 1) (.list [Entry.dict [("id", .vInt 1),
        ("habitaciones", .vInt 2), ("habitaciones_disponibles", .vInt 2)]]) =
        some (.vInt a) ∧ 0 < a ∧
      storedAvail (.vInt 1) (.list [Entry.dict [("id", .vInt 1),
        ("habitaciones", .vInt 2), ("habitaciones_disponibles", .vInt 1)]]) =
        some (.vInt (a - 1)) :=
  reserveRoom_spec.1 (.vInt 1) _ _ (by decide)

theorem modify_rederives_avail_witness :
    storedTotal (.vInt 1) (.list [Entry.dict [("id", .vInt 1),
        ("habitaciones", .vInt 75), ("habitaciones_disponibles", .vInt 75)]]) =
      some (.vInt 75) ∧
    storedAvail (.vInt 1) (.list [Entry.dict [("id", .vInt 1),
        ("habitaciones", .vInt 75), ("habitaciones_disponibles", .vInt 75)]]) =
      some (.vInt (75 - (50 - 50))) :=
  modify_rederives_avail.1 (.vInt 1) none none 75
    [Entry.dict [("id", .vInt 1), ("habitaciones", .vInt 50),
      ("habitaciones_disponibles", .vInt 50)]]
    (.list [Entry.dict [("id", .vInt 1), ("habitaciones", .vInt 75),
      ("habitaciones_disponibles", .vInt 75)]])
    50 50 (by decide) (by decide) (by decide)

theorem nextId_spec_witness :
    nextId [Entry.dict [("id", .vInt 5)]] = 5 + 1 :=
  nextId_spec.2.2.1 [Entry.dict [("id", .vInt 5)]] 5 (by decide) (by decide)

theorem ops_degrade_to_bool_witness :
    (∃ b, (entityDelete (.vInt 1) FileState.absent).1 = .ok b) ∧
    (∃ b, (reserveRoom (.vInt 1) (.list [Entry.dict [("id", .vInt 1),
      ("habitaciones", .vInt 2), ("habitaciones_disponibles", .vInt 2)]])).1 =
        .ok b) ∧
    (∃ b, (reservationCancel (.vInt 1) ⟨.absent,
      .list [Entry.dict [("id", .vInt 1), ("habitaciones", .vInt 2),
        ("habitaciones_disponibles", .vInt 1)]],
      .list [Entry.dict [("id", .vInt 1), ("hotel_id", .vInt 1),
        ("customer_id", .vInt 1)]]⟩).1 = .ok b) :=
  ⟨ops_degrade_to_bool.1 (.vInt 1) .absent (by decide),
   ops_degrade_to_bool.2.2.2.2.1 (.vInt 1) _ (by decide),
   ops_degrade_to_bool.2.2.2.2.2.2.2 (.vInt 1) _ (by decide) (by decide)⟩

theorem entityDelete_spec_witness :
    ∃ es', entityDelete (.vInt 1) (.list [Entry.dict [("id", .vInt 1)]]) =
      (.ok true, .list es') ∧
      ∀ e ∈ es', entryMatches (.vInt 1) e = false ∧ e ≠ Entry.other :=
  entityDelete_spec.1 (.vInt 1) _
    ⟨Entry.dict [("id", .vInt 1)], by decide, Or.inl (by decide)⟩

theorem hotel_ops_frame_witness :
    ∃ pre r r' post,
      [Entry.dict [("id", .vInt 1), ("habitaciones", .vInt 2),
        ("habitaciones_disponibles", .vInt 2)]] = pre ++ .dict r :: post ∧
      FileState.list [Entry.dict [("id", .vInt 1), ("habitaciones", .vInt 2),
        ("habitaciones_disponibles", .vInt 1)]] = .list (pre ++ .dict r' :: post) ∧
      idMatchesV r (.vInt 1) = true ∧
      ∀ x ∈ pre, entryMatches (.vInt 1) x = false :=
  hotel_ops_frame.2.1 (.vInt 1) _ _ (by decide)
